import Mathlib

/-!
Shallow embedding of the memory-layout graph engine of the `mv` repository
(`src-web/components/visualizer` and its hooks/utils), together with proofs
about the claims of its specification.

The embedding follows the TypeScript sources:
* `utils.ts` (getHeightFromSize, createEdge, calculateNodePosition,
  generateNodeId, calculateMemoryUsage),
* `hooks/useStackNodes.ts` (stack node construction and intra-stack pointer
  edge resolution),
* `hooks/useHeapNodes.ts` (heap node construction and stack-to-heap edge
  resolution),
* `visualizer.tsx` + `hooks/useMemoryState.ts` (the per-recomputation state
  machine: last-valid retention, reset-on-new-result, freeze-on-error,
  label nodes, emitted graph).

JavaScript-specific semantics are modelled explicitly:
* object identity of analysis results is modelled by tagging each result
  object with a numeric tag (`RespRef`),
* `Math.random`-based colors are modelled by an arbitrary color stream
  `cg : Nat -> String` together with a counter threaded through the passes,
* truthiness of strings (empty string is falsy) is modelled by `jsStrTruthy`,
* `String.prototype.includes` is modelled by `strIncludes`,
* `Number.prototype.toString(10/16).toUpperCase()` are modelled by
  `natToDec` / `toHexUpper` (fuel-structured base conversion),
* a thrown TypeError is modelled with `Except Unit`,
* React effect dependency tracking (an effect re-runs only when its
  dependencies change) is modelled by storing the previously seen
  dependencies in the state (`prevStackDep`, `prevHeapDep`, `ver`).
-/

namespace MV

/-- JS string truthiness for `string | null | undefined`:
`undefined`, `null` and the empty string are falsy. -/
def jsStrTruthy : Option String → Bool
  | none => false
  | some s => s ≠ ""

/-- A whitespace character as JS `String.prototype.trim` sees it (the
characters relevant to this model). -/
def isJsWs (c : Char) : Bool :=
  c = ' ' || c = '\t' || c = '\n' || c = '\r'

/-- JS `s.trim()`: strip leading and trailing whitespace. -/
def jsTrim (s : String) : String :=
  String.mk (((s.data.dropWhile isJsWs).reverse.dropWhile isJsWs).reverse)

/-- Does `pat` match at the head of `l`? (helper for `strIncludes`). -/
def matchesAt : List Char → List Char → Bool
  | [], _ => true
  | _ :: _, [] => false
  | p :: ps, c :: cs => p = c && matchesAt ps cs

/-- Substring search on character lists (helper for `strIncludes`). -/
def hasSub : List Char → List Char → Bool
  | [], pat => pat.isEmpty
  | c :: t, pat => matchesAt pat (c :: t) || hasSub t pat

/-- JS `s.includes(pat)`: substring containment. -/
def strIncludes (s pat : String) : Bool :=
  hasSub s.data pat.data

/-- Decimal digit character: `0`..`9` for `d < 10`
(the digits produced by JS `Number.prototype.toString()`). -/
def decChar (d : Nat) : Char := Char.ofNat (48 + d)

/-- Uppercase hexadecimal digit character: `0`..`9`, `A`..`F` for `d < 16`
(the digits of JS `n.toString(16).toUpperCase()`). -/
def hexChar (d : Nat) : Char :=
  if d < 10 then Char.ofNat (48 + d) else Char.ofNat (55 + d)

/-- Decimal digit list of `n`, most significant first; `fuel` bounds the
recursion depth (any `fuel ≥` number of digits is exact, and callers pass
`n + 1`). Mirrors JS `Number.prototype.toString()` for naturals. -/
def decDigits : Nat → Nat → List Char
  | 0, _ => []
  | fuel + 1, n =>
    if n / 10 = 0 then [decChar (n % 10)]
    else decDigits fuel (n / 10) ++ [decChar (n % 10)]

/-- Uppercase hexadecimal digit list of `n`, most significant first.
Mirrors JS `n.toString(16).toUpperCase()` for naturals. -/
def hexDigits : Nat → Nat → List Char
  | 0, _ => []
  | fuel + 1, n =>
    if n / 16 = 0 then [hexChar (n % 16)]
    else hexDigits fuel (n / 16) ++ [hexChar (n % 16)]

/-- JS `index.toString()` for a natural number. -/
def natToDec (n : Nat) : String := String.mk (decDigits (n + 1) n)

/-- JS `n.toString(16).toUpperCase()` for a natural number. -/
def toHexUpper (n : Nat) : String := String.mk (hexDigits (n + 1) n)

/-- The synthesized address string: `` `0x${address.toString(16).toUpperCase()}` ``. -/
def addrStr (n : Nat) : String := "0x" ++ toHexUpper n

/-- `Position.Left` / `Position.Right` of `@xyflow/react` (the only two
anchor positions the visualizer uses). -/
inductive AnchorPos where
  | left
  | right
deriving DecidableEq, Repr

/-- The untyped JS `data.size` field: the stack builder stores a number in
it, the heap builder stores a string (`block.size.toString()`). -/
inductive SizeVal where
  | num (n : Nat)
  | str (s : String)
deriving DecidableEq, Repr

/-- `extraInfo` of a node (`types/visualizer.ts`). -/
structure ExtraInfo where
  address : String
  pointingToAddress : Option String := none
  pointingToLabel : Option String := none
  metadata : Option String := none
  isFree : Option Bool := none
deriving DecidableEq, Repr

/-- `data` of a node (`types/visualizer.ts`). `dataType` is the optional
`type` field (tag such as a variable's declared type, `"Pointer"`, `"LB"`). -/
structure NodeInner where
  nodeType : String
  label : String
  value : String
  sizeVal : SizeVal
  dataType : String
  extraInfo : ExtraInfo
deriving DecidableEq, Repr

/-- A node of the graph (`NodeData` of `types/visualizer.ts`).
Coordinates and pixel dimensions are rationals (JS numbers used here are
exact on these operations). -/
structure NodeData where
  type : String
  id : String
  position : ℚ × ℚ
  sourcePosition : Option AnchorPos := none
  targetPosition : Option AnchorPos := none
  data : NodeInner
  width : ℚ
  height : ℚ
  size : Nat
deriving DecidableEq, Repr

/-- `markerEnd` of an edge (`createEdge` in `utils.ts`). -/
structure MarkerEnd where
  mtype : String
  width : Nat
  height : Nat
  color : String
deriving DecidableEq, Repr

/-- `style` of an edge (`createEdge` in `utils.ts`). -/
structure EdgeStyle where
  strokeWidth : Nat
  stroke : String
deriving DecidableEq, Repr

/-- An edge of the graph (`EdgeData` of `types/visualizer.ts`). -/
structure EdgeData where
  id : String
  type : String
  source : String
  target : String
  markerEnd : MarkerEnd
  style : EdgeStyle
deriving DecidableEq, Repr

/-- A label node (`"Stack"` / `"Heap"`, built inline in `visualizer.tsx`). -/
structure LabelNode where
  id : String
  type : String
  position : ℚ × ℚ
  label : String
  draggable : Bool
  selectable : Bool
deriving DecidableEq, Repr

/-- A stack symbol of the analysis result (`Variable` / `Pointer` variants;
`malformed` stands for an object that has neither key and is skipped by the
stack builder). `targetName` is `symbol.Pointer.value?.Variable?.name`. -/
inductive StackSymbol where
  | variable_ (name : String) (size : Nat) (value : Option String) (vtype : String)
  | pointer (name : String) (pointerSize : Nat) (targetName : Option String)
  | malformed
deriving DecidableEq, Repr

/-- A heap block of the analysis result. Field names follow the JSON shape
consumed by `useHeapNodes` (`block_state`, `current_pointer_identifier`,
`dangling_pointer_identifiers`); optional fields may be absent. -/
structure HeapBlock where
  size : Nat
  blockState : String
  metadata : Option String := none
  currentPointerIdentifier : Option String := none
  danglingPointerIdentifiers : Option (List String) := none
deriving DecidableEq, Repr

/-- An analysis result object; `stack` / `heap` may be absent (the hooks
guard against that — partially, see `heapEffect`). -/
structure AnalyzeResponse where
  stack : Option (List StackSymbol) := none
  heap : Option (List HeapBlock) := none
deriving DecidableEq, Repr

/-- An analysis result object together with its JS object identity,
modelled as a numeric tag: two result objects compare `===` exactly when
they are the same allocation, which we model as equality of `RespRef`s
(distinct allocations carry distinct tags). -/
structure RespRef where
  tag : Nat
  val : AnalyzeResponse
deriving DecidableEq, Repr

/-- The configuration and environment of one recomputation: the constants
of `constants.ts` (`BASE_NODE_HEIGHT`, `NODE_WIDTH`, `HEIGHT_OFFSET`), the
window height, the per-layer x coordinates from `usePositionState`, and the
color stream modelling `generateRandomColor` (the `k`-th call to it in a
recomputation history returns `cg k`). -/
structure VizEnv where
  baseNodeHeight : ℚ
  nodeWidth : ℚ
  heightOffset : ℚ
  windowHeight : ℚ
  stackX : ℚ
  heapX : ℚ
  cg : Nat → String

/-- `getHeightFromSize` (`utils.ts`): `size * BASE_NODE_HEIGHT`. -/
def getHeightFromSize (env : VizEnv) (size : Nat) : ℚ :=
  (size : ℚ) * env.baseNodeHeight

/-- `createEdge` (`utils.ts`). -/
def createEdge (id type source target color : String) : EdgeData :=
  { id, type, source, target,
    markerEnd := { mtype := "ArrowClosed", width := 20, height := 10, color },
    style := { strokeWidth := 4, stroke := color } }

/-- `calculateNodePosition` (`utils.ts`): the vertical position of the next
node of a layer, stacked gaplessly upward from the previous one. -/
def calculateNodePosition (env : VizEnv) (previousNode : Option NodeData)
    (nodeSize : Nat) : ℚ :=
  match previousNode with
  | none => env.windowHeight - getHeightFromSize env nodeSize - env.heightOffset
  | some p => p.position.2 - getHeightFromSize env nodeSize

/-- `generateNodeId` (`utils.ts`): the heap node id scheme. -/
def generateNodeId (index : Nat) (isUnallocated isFree : Bool) : String :=
  if isUnallocated then "unallocated-" ++ natToDec index
  else if isFree then "free-" ++ natToDec index
  else natToDec index

/-- `calculateMemoryUsage` (`utils.ts`): sums the sizes of the nodes whose
id does not contain the substring `free` or `unallocated`. -/
def calculateMemoryUsage (nodes : List NodeData) : Nat :=
  nodes.foldl
    (fun acc node =>
      if strIncludes node.id "free" || strIncludes node.id "unallocated" then acc
      else acc + node.size)
    0

/-- Modelled from the spec: the producer of the `stackFull` / `heapFull`
booleans of `MemoryState` is not present in the sources (only the
`MemoryState` type and `calculateMemoryUsage` are); per the output contract
each boolean is "memory usage of the layer's node list ≥ the configured
maximum", a pure function of the assembled node list. -/
def layerFull (nodes : List NodeData) (maxMemory : Nat) : Bool :=
  calculateMemoryUsage nodes ≥ maxMemory

/-! ## Stack builder (`useStackNodes`) -/

/-- The node built for a `Variable` stack symbol (`useStackNodes`, first
branch of the loop body). -/
def mkVariableNode (env : VizEnv) (prev : Option NodeData) (name : String)
    (size : Nat) (value : Option String) (vtype : String) (addr : Nat) :
    NodeData :=
  { type := "memoryBlockNode"
    id := name
    position := (env.stackX, calculateNodePosition env prev size)
    data :=
      { nodeType := "stack"
        label := name
        value := if jsStrTruthy value then value.getD "" else "Uninitialized"
        sizeVal := .num size
        dataType := vtype
        extraInfo := { address := addrStr addr } }
    width := env.nodeWidth
    height := getHeightFromSize env size
    size := size }

/-- The node built for a `Pointer` stack symbol (`useStackNodes`, second
branch of the loop body). -/
def mkPointerNode (env : VizEnv) (prev : Option NodeData) (name : String)
    (pointerSize : Nat) (targetName : Option String) (addr : Nat) :
    NodeData :=
  { type := "memoryBlockNode"
    id := name
    position := (env.stackX, calculateNodePosition env prev pointerSize)
    sourcePosition := some .right
    data :=
      { nodeType := "stack"
        label := "*" ++ name
        value := ""
        sizeVal := .num pointerSize
        dataType := "Pointer"
        extraInfo := { address := addrStr addr, pointingToLabel := targetName } }
    width := env.nodeWidth
    height := getHeightFromSize env pointerSize
    size := pointerSize }

/-- Phase 1 of `useStackNodes`: the `for (const symbol of ...)` loop.
`acc` is `stackNodesInner`, `addr` is the running `address` cursor
(started at `0xbfffffff`); malformed variants are skipped. -/
def stackBuildLoop (env : VizEnv) :
    List StackSymbol → List NodeData → Nat → List NodeData
  | [], acc, _ => acc
  | .variable_ name size value vtype :: rest, acc, addr =>
    stackBuildLoop env rest
      (acc ++ [mkVariableNode env acc.getLast? name size value vtype addr])
      (addr + size)
  | .pointer name psize tgt :: rest, acc, addr =>
    stackBuildLoop env rest
      (acc ++ [mkPointerNode env acc.getLast? name psize tgt addr])
      (addr + psize)
  | .malformed :: rest, acc, addr => stackBuildLoop env rest acc addr

/-- The in-place mutation of a matched pointer node in the intra-stack
connection pass: record the target's address and display `&target`. -/
def ptrUpdate (tn : NodeData) (lbl : String) (n : NodeData) : NodeData :=
  { n with data :=
      { n.data with
        value := "&" ++ lbl
        extraInfo :=
          { n.data.extraInfo with
            pointingToAddress := some tn.data.extraInfo.address } } }

/-- The in-place mutation of the target node of an intra-stack edge: both
anchors on the right side. -/
def tgtUpdate (n : NodeData) : NodeData :=
  { n with sourcePosition := some .right, targetPosition := some .right }

/-- Inner `forEach` of the intra-stack connection pass: the pointer at
index `i` is compared against the node at each index of `js` in order; on
a match both nodes are updated in place and a freshly colored edge is
pushed. `ctr` is the position in the color stream. -/
def phase2Inner (env : VizEnv) (i : Nat) :
    List Nat → List NodeData → List EdgeData → Nat →
    List NodeData × List EdgeData × Nat
  | [], arr, es, ctr => (arr, es, ctr)
  | j :: js, arr, es, ctr =>
    match arr.get? i, arr.get? j with
    | some nd, some tn =>
      match nd.data.extraInfo.pointingToLabel with
      | some lbl =>
        if tn.id = lbl then
          let arr1 := arr.set i (ptrUpdate tn lbl nd)
          let arr2 :=
            match arr1.get? j with
            | some x => arr1.set j (tgtUpdate x)
            | none => arr1
          let es' := es ++
            [createEdge ("e" ++ nd.id ++ "-" ++ tn.id) "step" nd.id tn.id
              (env.cg ctr)]
          phase2Inner env i js arr2 es' (ctr + 1)
        else phase2Inner env i js arr es ctr
      | none => phase2Inner env i js arr es ctr
    | _, _ => phase2Inner env i js arr es ctr

/-- Outer `forEach` of the intra-stack connection pass: only nodes whose
`data.type` is `"Pointer"` resolve their target. -/
def phase2Outer (env : VizEnv) :
    List Nat → List NodeData → List EdgeData → Nat →
    List NodeData × List EdgeData × Nat
  | [], arr, es, ctr => (arr, es, ctr)
  | i :: is, arr, es, ctr =>
    match arr.get? i with
    | some nd =>
      if nd.data.dataType = "Pointer" then
        let r := phase2Inner env i (List.range arr.length) arr es ctr
        phase2Outer env is r.1 r.2.1 r.2.2
      else phase2Outer env is arr es ctr
    | none => phase2Outer env is arr es ctr

/-- The full body of the `useStackNodes` effect after its guard: build the
nodes, then resolve intra-stack pointer connections. Returns the node
list, the connection list and the advanced color counter. -/
def useStackNodesCompute (env : VizEnv) (stack : List StackSymbol)
    (ctr : Nat) : List NodeData × List EdgeData × Nat :=
  let ns := stackBuildLoop env stack [] 0xbfffffff
  phase2Outer env (List.range ns.length) ns [] ctr

/-! ## Heap builder (`useHeapNodes`) -/

/-- The heap node built for one block (`useHeapNodes` loop body), before
the connection pass possibly sets its left target anchor. -/
def mkHeapNode (env : VizEnv) (prev : Option NodeData) (blk : HeapBlock)
    (hid : String) (addr : Nat) (isFree : Bool) : NodeData :=
  { type := "memoryBlockNode"
    id := hid
    position := (env.heapX, calculateNodePosition env prev blk.size)
    data :=
      { nodeType := "heap"
        label := if jsStrTruthy blk.metadata then blk.metadata.getD "" else "null"
        value := ""
        sizeVal := .str (natToDec blk.size)
        dataType := if blk.blockState = "Leaked" then "LB" else ""
        extraInfo := { address := addrStr addr, isFree := some isFree } }
    width := env.nodeWidth
    height := getHeightFromSize env blk.size
    size := blk.size }

/-- Does the block's `current_pointer_identifier` equal this stack node id?
(`===` against a possibly absent field). -/
def isCurrentPtr (blk : HeapBlock) (sid : String) : Bool :=
  blk.currentPointerIdentifier = some sid

/-- Is this stack node id in the block's `dangling_pointer_identifiers`?
(`?.includes` — an absent field is falsy). -/
def isDanglingPtr (blk : HeapBlock) (sid : String) : Bool :=
  sid ∈ blk.danglingPointerIdentifiers.getD []

/-- The color-reuse scan of `useHeapNodes`: the last already-queued edge
with the same `(source, target)` pair supplies the stroke, otherwise the
fresh stroke is kept. -/
def reuseStroke (es : List EdgeData) (src tgt dflt : String) : String :=
  es.foldl
    (fun acc c => if c.source = src ∧ c.target = tgt then c.style.stroke else acc)
    dflt

/-- The `stackNodes.forEach` body of `useHeapNodes` for one heap block:
walks the stack nodes in order, updating matched stack nodes in place,
queueing edges, and reporting whether any match set the heap node's left
target anchor. A fresh color is drawn for every stack node, matched or
not, exactly as in the source. -/
def heapStackFold (env : VizEnv) (blk : HeapBlock) (hid haddr : String) :
    List NodeData → List EdgeData → Nat →
    List NodeData × List EdgeData × Nat × Bool
  | [], es, ctr => ([], es, ctr, false)
  | sn :: rest, es, ctr =>
    let stroke0 := env.cg ctr
    if isCurrentPtr blk sn.id || isDanglingPtr blk sn.id then
      let sn1 :=
        { sn with data :=
            { sn.data with extraInfo :=
                { sn.data.extraInfo with pointingToAddress := some haddr } } }
      let stroke1 :=
        if isCurrentPtr blk sn.id then reuseStroke es sn.id hid stroke0
        else stroke0
      let sn2 :=
        if isDanglingPtr blk sn.id then
          { sn1 with data :=
              { sn1.data with extraInfo :=
                  { sn1.data.extraInfo with metadata := some "Dangling Pointer" } } }
        else sn1
      let stroke2 := if isDanglingPtr blk sn.id then "red" else stroke1
      let es' := es ++
        [createEdge ("e" ++ sn.id ++ "-" ++ hid) "straight" sn.id hid stroke2]
      let r := heapStackFold env blk hid haddr rest es' (ctr + 1)
      (sn2 :: r.1, r.2.1, r.2.2.1, true)
    else
      let r := heapStackFold env blk hid haddr rest es (ctr + 1)
      (sn :: r.1, r.2.1, r.2.2.1, r.2.2.2)

/-- The `for (const block of ...)` loop of `useHeapNodes`: `heapAcc` is
`heapNodesInner`, `sns` the (mutable) stack node list, `es` is
`connectionsInner`, `idx` the running index and `addr` the heap address
cursor (started at `0x00400000`). Returns heap nodes, the possibly
mutated stack nodes, the heap connections and the color counter. -/
def heapBuildLoop (env : VizEnv) :
    List HeapBlock → List NodeData → List NodeData → List EdgeData →
    Nat → Nat → Nat →
    List NodeData × List NodeData × List EdgeData × Nat
  | [], heapAcc, sns, es, ctr, _, _ => (heapAcc, sns, es, ctr)
  | blk :: rest, heapAcc, sns, es, ctr, idx, addr =>
    let isFree := blk.blockState = "Free"
    let isUnallocated := blk.blockState = "Unallocated"
    let hid := generateNodeId idx isUnallocated isFree
    let node0 := mkHeapNode env heapAcc.getLast? blk hid addr isFree
    let haddr := node0.data.extraInfo.address
    let r :=
      if strIncludes hid "unallocated" then (sns, es, ctr, false)
      else heapStackFold env blk hid haddr sns es ctr
    let node1 := if r.2.2.2 then { node0 with targetPosition := some .left } else node0
    heapBuildLoop env rest (heapAcc ++ [node1]) r.1 r.2.1 r.2.2.1 (idx + 1)
      (addr + blk.size)

/-- The full body of the `useHeapNodes` effect after its guard. Returns
heap nodes, the mutated stack node list, heap connections and the
advanced color counter. -/
def useHeapNodesCompute (env : VizEnv) (heap : List HeapBlock)
    (stackNodes : List NodeData) (ctr : Nat) :
    List NodeData × List NodeData × List EdgeData × Nat :=
  heapBuildLoop env heap [] stackNodes [] ctr 0 0x00400000

/-! ## The recomputation state machine (`visualizer.tsx` + `useMemoryState`) -/

/-- The external signals of one recomputation: the analysis result object
(`analyzeResponse`, `null` modelled as `none`), the truthiness of
`analyzeError`, and the source text. -/
structure VizInput where
  resp : Option RespRef
  err : Bool
  source : String
deriving DecidableEq, Repr

/-- The state retained across recomputations: the four per-layer lists of
`useMemoryState`, the `lastValidAnalyzeResponse` cache, the previously seen
effect dependencies (`prevStackDep` for `useStackNodes`; `prevHeapDep` for
`useHeapNodes`, whose dependencies also include the identity of the stack
node array, tracked by the version counter `ver` bumped on every
`setStackNodes` call), and the position `ctr` in the color stream. -/
structure VizState where
  stackNodes : List NodeData
  heapNodes : List NodeData
  stackConns : List EdgeData
  heapConns : List EdgeData
  lastValid : Option RespRef
  prevStackDep : Option (Option RespRef)
  prevHeapDep : Option (Option RespRef × Nat)
  ver : Nat
  ctr : Nat
deriving DecidableEq, Repr

/-- The state on mount: empty layers, no cached result, no effect has run. -/
def initState : VizState :=
  { stackNodes := [], heapNodes := [], stackConns := [], heapConns := []
    lastValid := none, prevStackDep := none, prevHeapDep := none
    ver := 0, ctr := 0 }

/-- `hasValidAnalyzeResponse` (`visualizer.tsx`): a non-null result, no
analyze error, and at least one stack or heap entry (`?.length > 0` is
false for an absent field). -/
def hasValidResp (resp : Option RespRef) (err : Bool) : Bool :=
  match resp with
  | none => false
  | some r =>
    !err &&
      ((r.val.stack.getD []).length > 0 || (r.val.heap.getD []).length > 0)

/-- The guarded body of the `useStackNodes` effect: `none` when the guard
`!analyzeResponse || !analyzeResponse.stack` returns early (no state is
set), otherwise the computed stack nodes/connections. -/
def stackEffect (env : VizEnv) (resp : Option RespRef) (ctr : Nat) :
    Option (List NodeData × List EdgeData × Nat) :=
  match resp with
  | none => none
  | some r =>
    match r.val.stack with
    | none => none
    | some syms => some (useStackNodesCompute env syms ctr)

/-- The guarded body of the `useHeapNodes` effect. The guard is
`!analyzeResponse || !analyzeResponse.heap || analyzeResponse.stack.length === 0`:
when the result has a `heap` field but no `stack` field, reading
`analyzeResponse.stack.length` throws a TypeError, modelled as
`Except.error ()`. `Except.ok none` is an early return (previous heap
state is kept); `Except.ok (some _)` carries heap nodes, mutated stack
nodes, heap connections and the color counter. -/
def heapEffect (env : VizEnv) (resp : Option RespRef)
    (stackNodes : List NodeData) (ctr : Nat) :
    Except Unit (Option (List NodeData × List NodeData × List EdgeData × Nat)) :=
  match resp with
  | none => .ok none
  | some r =>
    match r.val.heap with
    | none => .ok none
    | some blocks =>
      match r.val.stack with
      | none => .error ()
      | some [] => .ok none
      | some (_ :: _) => .ok (some (useHeapNodesCompute env blocks stackNodes ctr))

/-- The tail of one recomputation once the heap effect's dependencies are
known to have changed: run the guarded heap effect and commit its result
(or keep the previous heap layer on an early return; propagate a crash). -/
def heapFinish (env : VizEnv) (effective : Option RespRef)
    (sn1 hn0 : List NodeData) (sc1 hc0 : List EdgeData)
    (lastValid' : Option RespRef) (psd' : Option (Option RespRef))
    (heapDep : Option RespRef × Nat) (ver1 ctr1 : Nat) (didReset : Bool) :
    Except Unit (VizState × Bool) :=
  match heapEffect env effective sn1 ctr1 with
  | .error e => .error e
  | .ok none =>
    .ok
      ({ stackNodes := sn1, heapNodes := hn0, stackConns := sc1, heapConns := hc0
         lastValid := lastValid', prevStackDep := psd', prevHeapDep := some heapDep
         ver := ver1, ctr := ctr1 }, didReset)
  | .ok (some (hns, sns', hcs, ctr2)) =>
    .ok
      ({ stackNodes := sns', heapNodes := hns, stackConns := sc1, heapConns := hcs
         lastValid := lastValid', prevStackDep := psd', prevHeapDep := some heapDep
         ver := ver1, ctr := ctr2 }, didReset)

/-- One converged recomputation of the `Visualizer` component for a new
input signal: the last-valid retention effect, the reset effect, the
stack-nodes effect and the heap-nodes effect, each run only when its
dependencies changed, iterated to the fixed point React reaches for that
input. Returns the new state and whether a full rebuild (reset of all
four lists) was triggered; `Except.error` models a crash of the heap
effect. -/
def recompute (env : VizEnv) (s : VizState) (inp : VizInput) :
    Except Unit (VizState × Bool) :=
  let hasValid := hasValidResp inp.resp inp.err
  let didReset := hasValid && inp.resp ≠ s.lastValid
  let lastValid' := if hasValid then inp.resp else s.lastValid
  let showLast :=
    jsTrim inp.source ≠ "" && !hasValid && lastValid' ≠ none
  let effective := if showLast then lastValid' else inp.resp
  let sn0 := if didReset then [] else s.stackNodes
  let hn0 := if didReset then [] else s.heapNodes
  let sc0 := if didReset then [] else s.stackConns
  let hc0 := if didReset then [] else s.heapConns
  let ver0 := if didReset then s.ver + 1 else s.ver
  let stackRan := s.prevStackDep ≠ some effective
  let stackRes := if stackRan then stackEffect env effective s.ctr else none
  let sn1 := match stackRes with | some (ns, _, _) => ns | none => sn0
  let sc1 := match stackRes with | some (_, cs, _) => cs | none => sc0
  let ver1 := match stackRes with | some _ => ver0 + 1 | none => ver0
  let ctr1 := match stackRes with | some (_, _, c) => c | none => s.ctr
  let psd' := if stackRan then some effective else s.prevStackDep
  let heapDep := (effective, ver1)
  if s.prevHeapDep = some heapDep then
    .ok
      ({ stackNodes := sn1, heapNodes := hn0, stackConns := sc1, heapConns := hc0
         lastValid := lastValid', prevStackDep := psd', prevHeapDep := s.prevHeapDep
         ver := ver1, ctr := ctr1 }, didReset)
  else
    heapFinish env effective sn1 hn0 sc1 hc0 lastValid' psd' heapDep ver1 ctr1
      didReset

/-- The topmost (minimum-`y`) node of a layer, via the `reduce` of
`visualizer.tsx` (strict comparison, first minimum wins). -/
def topNode : List NodeData → Option NodeData
  | [] => none
  | h :: t =>
    some ((h :: t).foldl
      (fun top n => if n.position.2 < top.position.2 then n else top) h)

/-- The label nodes of `visualizer.tsx`: one `"Stack"` and one `"Heap"`
label just above the topmost node of the respective layer, omitted when
that layer is empty. -/
def labelNodes (env : VizEnv) (s : VizState) : List LabelNode :=
  (match topNode s.stackNodes with
   | none => []
   | some top =>
     [{ id := "stack-label", type := "labelNode"
        position := (env.stackX + env.nodeWidth / 2 - 30, top.position.2 - 50)
        label := "Stack", draggable := false, selectable := false }]) ++
  (match topNode s.heapNodes with
   | none => []
   | some top =>
     [{ id := "heap-label", type := "labelNode"
        position := (env.heapX + env.nodeWidth / 2 - 30, top.position.2 - 50)
        label := "Heap", draggable := false, selectable := false }])

/-- The graph handed to the rendering collaborator: stack nodes, then heap
nodes, then label nodes; stack connections, then heap connections. -/
structure Graph where
  memNodes : List NodeData
  labels : List LabelNode
  edges : List EdgeData
deriving DecidableEq, Repr

/-- The emitted graph of a state (the `nodes` / `edges` props of the
`ReactFlow` element). -/
def emittedGraph (env : VizEnv) (s : VizState) : Graph :=
  { memNodes := s.stackNodes ++ s.heapNodes
    labels := labelNodes env s
    edges := s.stackConns ++ s.heapConns }

/-- Extract the state of a successful recomputation (used only to chain
concrete runs in witnesses; a crash yields the initial state). -/
def okState (r : Except Unit (VizState × Bool)) : VizState :=
  match r with
  | .ok (s, _) => s
  | .error _ => initState

instance {e a : Type} [DecidableEq e] [DecidableEq a] : DecidableEq (Except e a) :=
  fun x y =>
    match x, y with
    | .ok u, .ok v => if h : u = v then isTrue (by rw [h]) else isFalse (by simp [h])
    | .error u, .error v => if h : u = v then isTrue (by rw [h]) else isFalse (by simp [h])
    | .ok _, .error _ => isFalse (by simp)
    | .error _, .ok _ => isFalse (by simp)

/-! ## Decimal and hexadecimal digit facts -/

/-- Specification-side inverse of `decChar`: the numeric value of a
decimal digit character. -/
def digitVal (c : Char) : Nat :=
  if c = '0' then 0 else if c = '1' then 1 else if c = '2' then 2
  else if c = '3' then 3 else if c = '4' then 4 else if c = '5' then 5
  else if c = '6' then 6 else if c = '7' then 7 else if c = '8' then 8
  else if c = '9' then 9 else 0

/-- Specification-side decoder of a decimal digit string. -/
def decVal (cs : List Char) : Nat :=
  cs.foldl (fun a c => 10 * a + digitVal c) 0

/-- `decVal` with an explicit initial accumulator. -/
def decValFrom (a : Nat) (cs : List Char) : Nat :=
  cs.foldl (fun a c => 10 * a + digitVal c) a

theorem decValFrom_append (a : Nat) (l r : List Char) :
    decValFrom a (l ++ r) = decValFrom (decValFrom a l) r := by
  simp [decValFrom, List.foldl_append]

theorem digitVal_decChar (d : Nat) (h : d < 10) : digitVal (decChar d) = d := by
  interval_cases d <;> decide

theorem decChar_ne_u (d : Nat) (h : d < 10) : decChar d ≠ 'u' := by
  interval_cases d <;> decide

theorem decChar_ne_f (d : Nat) (h : d < 10) : decChar d ≠ 'f' := by
  interval_cases d <;> decide

theorem decDigits_chars (fuel n : Nat) :
    ∀ c ∈ decDigits fuel n, ∃ d, d < 10 ∧ c = decChar d := by
  induction fuel generalizing n with
  | zero => intro c hc; simp [decDigits] at hc
  | succ fuel ih =>
    intro c hc
    by_cases h : n / 10 = 0
    · simp [decDigits, h] at hc
      exact ⟨n % 10, Nat.mod_lt _ (by norm_num), hc⟩
    · simp [decDigits, h] at hc
      rcases hc with hc | hc
      · exact ih (n / 10) c hc
      · exact ⟨n % 10, Nat.mod_lt _ (by norm_num), hc⟩

theorem decDigits_ne_nil (fuel n : Nat) : decDigits (fuel + 1) n ≠ [] := by
  by_cases h : n / 10 = 0 <;> simp [decDigits, h]

theorem decVal_decDigits (fuel : Nat) :
    ∀ n, n < 10 ^ fuel → ∀ a, decValFrom a (decDigits fuel n) = a * 10 ^ (decDigits fuel n).length + n := by
  induction fuel with
  | zero =>
    intro n hn a
    interval_cases n
    simp [decDigits, decValFrom]
  | succ fuel ih =>
    intro n hn a
    by_cases h : n / 10 = 0
    · have hn10 : n < 10 := by omega
      simp [decDigits, h, decValFrom, digitVal_decChar (n % 10) (Nat.mod_lt _ (by norm_num))]
      omega
    · have hdiv : n / 10 < 10 ^ fuel := by
        rw [Nat.div_lt_iff_lt_mul (by norm_num : 0 < 10)]
        calc n < 10 ^ (fuel + 1) := hn
        _ = 10 ^ fuel * 10 := by ring
      rw [decDigits, if_neg h, decValFrom_append, ih (n / 10) hdiv a]
      have hlen : (decDigits fuel (n / 10) ++ [decChar (n % 10)]).length
          = (decDigits fuel (n / 10)).length + 1 := by simp
      rw [hlen]
      simp [decValFrom, digitVal_decChar (n % 10) (Nat.mod_lt _ (by norm_num))]
      rw [Nat.pow_succ]
      have := Nat.div_add_mod n 10
      ring_nf
      omega

theorem lt_pow_self_ten (n : Nat) : n < 10 ^ (n + 1) :=
  lt_of_lt_of_le (Nat.lt_pow_self (by norm_num) n)
    (Nat.pow_le_pow_right (by norm_num) (Nat.le_succ n))

theorem decVal_decDigits_self (n : Nat) : decVal (decDigits (n + 1) n) = n := by
  have := decVal_decDigits (n + 1) n (lt_pow_self_ten n) 0
  simpa [decVal] using this

theorem decDigits_inj {m n : Nat}
    (h : decDigits (m + 1) m = decDigits (n + 1) n) : m = n := by
  have hm := decVal_decDigits_self m
  have hn := decVal_decDigits_self n
  rw [h] at hm
  omega

theorem string_data_append (a b : String) : (a ++ b).data = a.data ++ b.data := by
  cases a; cases b; rfl

theorem natToDec_data (n : Nat) : (natToDec n).data = decDigits (n + 1) n := rfl

theorem natToDec_inj {m n : Nat} (h : natToDec m = natToDec n) : m = n := by
  apply decDigits_inj
  have : (natToDec m).data = (natToDec n).data := by rw [h]
  simpa [natToDec_data] using this

/-- The characters of any decimal digit string are not `u` or `f` (used to
separate the three heap-id shapes). -/
theorem decDigits_no_uf (fuel n : Nat) :
    ∀ c ∈ decDigits fuel n, c ≠ 'u' ∧ c ≠ 'f' := by
  intro c hc
  obtain ⟨d, hd, rfl⟩ := decDigits_chars fuel n c hc
  exact ⟨decChar_ne_u d hd, decChar_ne_f d hd⟩

/-! ## Substring (`strIncludes`) facts -/

theorem matchesAt_self_append (pat rest : List Char) :
    matchesAt pat (pat ++ rest) = true := by
  induction pat with
  | nil => rfl
  | cons p ps ih => simp [matchesAt, ih]

theorem hasSub_self_append (pat rest : List Char) (hne : pat ≠ []) :
    hasSub (pat ++ rest) pat = true := by
  cases pat with
  | nil => exact absurd rfl hne
  | cons p ps =>
    show hasSub (p :: (ps ++ rest)) (p :: ps) = true
    have h := matchesAt_self_append (p :: ps) rest
    simp [hasSub]
    exact Or.inl h

theorem hasSub_eq_false_of_head_notMem (l : List Char) (p : Char)
    (ps : List Char) (h : ∀ c ∈ l, c ≠ p) : hasSub l (p :: ps) = false := by
  induction l with
  | nil => rfl
  | cons c t ih =>
    have hcp : ¬(p = c) := fun he => (h c (by simp)) he.symm
    simp [hasSub, matchesAt, hcp]
    exact ih fun c hc => h c (by simp [hc])

/-! ## Concrete fixtures used by witnesses and counterexamples -/

/-- A concrete environment with explicit constants and a constant color
stream. -/
def envW : VizEnv :=
  { baseNodeHeight := 10, nodeWidth := 100, heightOffset := 50
    windowHeight := 800, stackX := 50, heapX := 500, cg := fun _ => "c" }

/-- The spec's first example scenario: a variable and a pointer to it. -/
def stackW : List StackSymbol :=
  [.variable_ "x" 4 (some "12") "Integer", .pointer "p" 8 (some "x")]

/-- A single pointer `p` with no declared target. -/
def stackP : List StackSymbol := [.pointer "p" 8 none]

/-- A free block dangled and currently referenced by `p` (the current and
dangling relations hold for the same pair). -/
def blkD : HeapBlock :=
  { size := 4, blockState := "Free", currentPointerIdentifier := some "p"
    danglingPointerIdentifiers := some ["p"] }

/-- One-block heap exercising the dangling relation. -/
def heapD : List HeapBlock := [blkD]

/-- The first block of the two-block counterexample heap: allocated and
currently referenced by `p`. -/
def blkA : HeapBlock :=
  { size := 4, blockState := "Allocated", currentPointerIdentifier := some "p" }

/-- The second block of the two-block counterexample heap: freed with `p`
recorded as dangling. -/
def blkF : HeapBlock :=
  { size := 4, blockState := "Free", danglingPointerIdentifiers := some ["p"] }

/-- Two blocks that both relate to the single pointer `p`. -/
def heapTwo : List HeapBlock := [blkA, blkF]

/-- One allocated block currently pointed to by `p`. -/
def heapA : List HeapBlock := [blkA]

/-- The stack nodes built for `stackP` in the concrete environment. -/
def snsP : List NodeData := (useStackNodesCompute envW stackP 0).1

/-! ## `generateNodeId` facts -/

theorem generateNodeId_data (i : Nat) (u f : Bool) :
    (generateNodeId i u f).data =
      (if u then "unallocated-".data else if f then "free-".data else []) ++
        decDigits (i + 1) i := by
  cases u <;> cases f <;>
    simp [generateNodeId, string_data_append, natToDec_data, natToDec]

theorem strIncludes_generateNodeId_unallocated (i : Nat) (u f : Bool) :
    strIncludes (generateNodeId i u f) "unallocated" = u := by
  cases u with
  | true =>
    simp only [strIncludes, generateNodeId_data, if_true]
    exact hasSub_self_append
      ['u', 'n', 'a', 'l', 'l', 'o', 'c', 'a', 't', 'e', 'd']
      ('-' :: decDigits (i + 1) i) (by decide)
  | false =>
    simp only [strIncludes, generateNodeId_data, Bool.false_eq_true, if_false]
    show hasSub _ ('u' :: "nallocated".data) = false
    apply hasSub_eq_false_of_head_notMem
    intro c hc
    rw [List.mem_append] at hc
    rcases hc with hc | hc
    · cases f with
      | true =>
        simp at hc
        rcases hc with rfl | rfl | rfl | rfl | rfl <;> decide
      | false => simp at hc
    · exact (decDigits_no_uf _ _ c hc).1

theorem strIncludes_generateNodeId_free (i : Nat) (u f : Bool) :
    strIncludes (generateNodeId i u f) "free" = (!u && f) := by
  cases u with
  | true =>
    simp only [strIncludes, generateNodeId_data, if_true, Bool.not_true,
      Bool.false_and]
    show hasSub _ ('f' :: "ree".data) = false
    apply hasSub_eq_false_of_head_notMem
    intro c hc
    rw [List.mem_append] at hc
    rcases hc with hc | hc
    · simp at hc
      rcases hc with rfl | rfl | rfl | rfl | rfl | rfl | rfl | rfl | rfl
        | rfl | rfl | rfl <;> decide
    · exact (decDigits_no_uf _ _ c hc).2
  | false =>
    cases f with
    | true =>
      simp only [strIncludes, generateNodeId_data, Bool.false_eq_true, if_false,
        if_true, Bool.not_false, Bool.true_and]
      exact hasSub_self_append ['f', 'r', 'e', 'e']
        ('-' :: decDigits (i + 1) i) (by decide)
    | false =>
      simp only [strIncludes, generateNodeId_data, Bool.false_eq_true, if_false,
        Bool.not_false, Bool.true_and, List.nil_append]
      show hasSub _ ('f' :: "ree".data) = false
      apply hasSub_eq_false_of_head_notMem
      intro c hc
      exact (decDigits_no_uf _ _ c hc).2

/-! ## Address chains (infrastructure for the address-synthesis claim) -/

/-- Sum of the sizes of a node list. -/
def sumSizes (ns : List NodeData) : Nat := (ns.map (fun n => n.size)).sum

/-- The addresses of `ns` chain upward from `base`: the `j`-th node's
address is `base` plus the sizes of all earlier nodes. -/
def chainFrom (base : Nat) (ns : List NodeData) : Prop :=
  ∀ j n, ns.get? j = some n →
    n.data.extraInfo.address = addrStr (base + sumSizes (ns.take j))

theorem sumSizes_append (a b : List NodeData) :
    sumSizes (a ++ b) = sumSizes a + sumSizes b := by simp [sumSizes]

theorem chainFrom_nil (base : Nat) : chainFrom base [] := by
  intro j n h; simp at h

theorem take_append_left {α} (l r : List α) (j : Nat) (h : j ≤ l.length) :
    (l ++ r).take j = l.take j := by
  rw [List.take_append_eq_append_take, Nat.sub_eq_zero_of_le h,
    List.take_zero, List.append_nil]

theorem chainFrom_append_one {base : Nat} {acc : List NodeData} {x : NodeData}
    (hacc : chainFrom base acc)
    (hx : x.data.extraInfo.address = addrStr (base + sumSizes acc)) :
    chainFrom base (acc ++ [x]) := by
  intro j n h
  rcases Nat.lt_trichotomy j acc.length with hj | hj | hj
  · rw [List.get?_append hj] at h
    rw [hacc j n h, take_append_left _ _ _ (le_of_lt hj)]
  · subst hj
    rw [List.get?_concat_length] at h
    cases h
    rw [hx, List.take_left]
  · rw [List.get?_eq_none.2 (by simp; omega)] at h
    cases h

theorem stackBuildLoop_chain (env : VizEnv) (base : Nat) :
    ∀ (syms : List StackSymbol) (acc : List NodeData) (addr : Nat),
      chainFrom base acc → addr = base + sumSizes acc →
      chainFrom base (stackBuildLoop env syms acc addr) := by
  intro syms
  induction syms with
  | nil => intro acc addr hacc _; simpa [stackBuildLoop] using hacc
  | cons s rest ih =>
    intro acc addr hacc haddr
    cases s with
    | variable_ name size value vtype =>
      rw [stackBuildLoop]
      apply ih
      · exact chainFrom_append_one hacc (by simp [mkVariableNode, haddr])
      · rw [sumSizes_append, haddr]
        simp [sumSizes, mkVariableNode]
        ring
    | pointer name psize tgt =>
      rw [stackBuildLoop]
      apply ih
      · exact chainFrom_append_one hacc (by simp [mkPointerNode, haddr])
      · rw [sumSizes_append, haddr]
        simp [sumSizes, mkPointerNode]
        ring
    | malformed => rw [stackBuildLoop]; exact ih acc addr hacc haddr

/-- The projection of a stack node that the intra-stack connection pass
leaves untouched. -/
def stackProj (n : NodeData) :
    String × String × Option String × String × Nat :=
  (n.id, n.data.dataType, n.data.extraInfo.pointingToLabel,
    n.data.extraInfo.address, n.size)

theorem stackProj_ptrUpdate (tn : NodeData) (lbl : String) (n : NodeData) :
    stackProj (ptrUpdate tn lbl n) = stackProj n := rfl

theorem stackProj_tgtUpdate (n : NodeData) :
    stackProj (tgtUpdate n) = stackProj n := rfl

theorem set_get?_self {α} :
    ∀ (l : List α) (i : Nat) (a : α), l.get? i = some a → l.set i a = l := by
  intro l
  induction l with
  | nil => intro i a h; simp at h
  | cons x t ih =>
    intro i a h
    cases i with
    | zero =>
      have hx : a = x := by
        have h2 : some x = some a := h
        injection h2 with h2
        exact h2.symm
      simp [hx]
    | succ i =>
      have ht : t.get? i = some a := h
      simp [ih i a ht]

theorem map_set_proj {f : NodeData → String × String × Option String × String × Nat}
    (arr : List NodeData) (i : Nat) (x nd : NodeData)
    (h : arr.get? i = some nd) (hf : f x = f nd) :
    (arr.set i x).map f = arr.map f := by
  rw [List.map_set]
  apply set_get?_self
  rw [List.get?_map, h]
  simp [hf]

theorem phase2Inner_proj (env : VizEnv) (i : Nat) :
    ∀ (js : List Nat) (arr : List NodeData) (es : List EdgeData) (ctr : Nat),
      (phase2Inner env i js arr es ctr).1.map stackProj = arr.map stackProj := by
  intro js
  induction js with
  | nil => intro arr es ctr; rfl
  | cons j js ih =>
    intro arr es ctr
    rw [phase2Inner]
    rcases hi : arr.get? i with _ | nd
    · simp only [hi]; exact ih arr es ctr
    rcases hj : arr.get? j with _ | tn
    · simp only [hi, hj]; exact ih arr es ctr
    simp only [hi, hj]
    rcases hl : nd.data.extraInfo.pointingToLabel with _ | lbl
    · exact ih arr es ctr
    by_cases hid : tn.id = lbl
    · simp only [hid, if_true]
      set arr1 := arr.set i (ptrUpdate tn lbl nd) with harr1
      have h1 : arr1.map stackProj = arr.map stackProj :=
        map_set_proj arr i _ nd hi (stackProj_ptrUpdate tn lbl nd)
      rcases hj1 : arr1.get? j with _ | x
      · simp only [hj1]; rw [ih]; exact h1
      · simp only [hj1]
        rw [ih]
        have h2 : (arr1.set j (tgtUpdate x)).map stackProj = arr1.map stackProj :=
          map_set_proj arr1 j _ x hj1 (stackProj_tgtUpdate x)
        rw [h2]; exact h1
    · simp only [hid, if_false]
      exact ih arr es ctr

theorem phase2Outer_proj (env : VizEnv) :
    ∀ (is : List Nat) (arr : List NodeData) (es : List EdgeData) (ctr : Nat),
      (phase2Outer env is arr es ctr).1.map stackProj = arr.map stackProj := by
  intro is
  induction is with
  | nil => intro arr es ctr; rfl
  | cons i is ih =>
    intro arr es ctr
    rw [phase2Outer]
    rcases hi : arr.get? i with _ | nd
    · simp only [hi]; exact ih arr es ctr
    simp only [hi]
    by_cases hp : nd.data.dataType = "Pointer"
    · simp only [hp, if_true]
      rw [ih, phase2Inner_proj]
    · simp only [hp, if_false]
      exact ih arr es ctr

theorem useStackNodesCompute_proj (env : VizEnv) (syms : List StackSymbol)
    (ctr : Nat) :
    (useStackNodesCompute env syms ctr).1.map stackProj =
      (stackBuildLoop env syms [] 0xbfffffff).map stackProj := by
  rw [useStackNodesCompute]
  exact phase2Outer_proj env _ _ _ _

theorem chainFrom_of_proj_eq {base : Nat} {ns ns' : List NodeData}
    (hp : ns'.map stackProj = ns.map stackProj) (h : chainFrom base ns) :
    chainFrom base ns' := by
  intro j n hj
  have hget : (ns.get? j).map stackProj = some (stackProj n) := by
    rw [← List.get?_map, ← hp, List.get?_map, hj]
    rfl
  rcases hm : ns.get? j with _ | m
  · rw [hm] at hget; cases hget
  rw [hm] at hget
  have hmn : stackProj m = stackProj n := by
    have h2 : some (stackProj m) = some (stackProj n) := hget
    injection h2 with h1
  have haddr : m.data.extraInfo.address = n.data.extraInfo.address :=
    congrArg (fun p => p.2.2.2.1) hmn
  have hsizes : ns'.map (fun n => n.size) = ns.map (fun n => n.size) := by
    have h2 := congrArg
      (List.map (fun p : String × String × Option String × String × Nat =>
        p.2.2.2.2)) hp
    rw [List.map_map, List.map_map] at h2
    exact h2
  have hsum : sumSizes (ns'.take j) = sumSizes (ns.take j) := by
    unfold sumSizes
    rw [List.map_take, List.map_take, hsizes]
  rw [← haddr, h j m hm, hsum]

theorem heapNode1_address (node0 : NodeData) (b : Bool) :
    ((if b then { node0 with targetPosition := some .left } else node0) :
        NodeData).data.extraInfo.address = node0.data.extraInfo.address := by
  cases b <;> rfl

theorem heapNode1_size (node0 : NodeData) (b : Bool) :
    ((if b then { node0 with targetPosition := some .left } else node0) :
        NodeData).size = node0.size := by
  cases b <;> rfl

theorem heapBuildLoop_chain (env : VizEnv) (base : Nat) :
    ∀ (blocks : List HeapBlock) (heapAcc sns : List NodeData)
      (es : List EdgeData) (ctr idx addr : Nat),
      chainFrom base heapAcc → addr = base + sumSizes heapAcc →
      chainFrom base (heapBuildLoop env blocks heapAcc sns es ctr idx addr).1 := by
  intro blocks
  induction blocks with
  | nil => intro heapAcc sns es ctr idx addr hacc _; simpa [heapBuildLoop] using hacc
  | cons blk rest ih =>
    intro heapAcc sns es ctr idx addr hacc haddr
    rw [heapBuildLoop]
    apply ih
    · apply chainFrom_append_one hacc
      rw [heapNode1_address]
      simp [mkHeapNode, haddr]
    · rw [sumSizes_append, haddr]
      have hone : ∀ x : NodeData, sumSizes [x] = x.size := by
        intro x; simp [sumSizes]
      rw [hone, heapNode1_size]
      simp [mkHeapNode]
      ring

/-! ## Address string format -/

/-- Uppercase hexadecimal digit predicate. -/
def isUpperHexChar (c : Char) : Bool :=
  c ∈ ['0', '1', '2', '3', '4', '5', '6', '7', '8', '9', 'A', 'B', 'C', 'D',
    'E', 'F']

/-- `s` is `0x` followed by at least one uppercase hexadecimal digit. -/
def hexAddrFormat (s : String) : Bool :=
  match s.data with
  | '0' :: 'x' :: rest => !rest.isEmpty && rest.all isUpperHexChar
  | _ => false

theorem isUpperHexChar_hexChar (d : Nat) (h : d < 16) :
    isUpperHexChar (hexChar d) = true := by
  interval_cases d <;> decide

theorem hexDigits_chars (fuel n : Nat) :
    ∀ c ∈ hexDigits fuel n, isUpperHexChar c = true := by
  induction fuel generalizing n with
  | zero => intro c hc; simp [hexDigits] at hc
  | succ fuel ih =>
    intro c hc
    by_cases h : n / 16 = 0
    · simp [hexDigits, h] at hc
      rw [hc]
      exact isUpperHexChar_hexChar _ (Nat.mod_lt _ (by norm_num))
    · simp [hexDigits, h] at hc
      rcases hc with hc | hc
      · exact ih (n / 16) c hc
      · rw [hc]
        exact isUpperHexChar_hexChar _ (Nat.mod_lt _ (by norm_num))

theorem hexDigits_ne_nil (fuel n : Nat) : hexDigits (fuel + 1) n ≠ [] := by
  by_cases h : n / 16 = 0 <;> simp [hexDigits, h]

theorem addrStr_data (n : Nat) :
    (addrStr n).data = '0' :: 'x' :: hexDigits (n + 1) n := by
  rw [addrStr, string_data_append]
  rfl

theorem hexAddrFormat_addrStr (n : Nat) : hexAddrFormat (addrStr n) = true := by
  rw [hexAddrFormat, addrStr_data]
  simp only [Bool.and_eq_true, List.all_eq_true]
  constructor
  · simp [List.isEmpty_iff, hexDigits_ne_nil n n]
  · exact hexDigits_chars (n + 1) n

theorem generateNodeId_inj {i j : Nat} {u1 f1 u2 f2 : Bool}
    (h : generateNodeId i u1 f1 = generateNodeId j u2 f2) : i = j := by
  have hd : (generateNodeId i u1 f1).data = (generateNodeId j u2 f2).data := by
    rw [h]
  rw [generateNodeId_data, generateNodeId_data] at hd
  have hiu : ('u' : Char) ∉ decDigits (i + 1) i :=
    fun hm => (decDigits_no_uf _ _ _ hm).1 rfl
  have hif : ('f' : Char) ∉ decDigits (i + 1) i :=
    fun hm => (decDigits_no_uf _ _ _ hm).2 rfl
  have hju : ('u' : Char) ∉ decDigits (j + 1) j :=
    fun hm => (decDigits_no_uf _ _ _ hm).1 rfl
  have hjf : ('f' : Char) ∉ decDigits (j + 1) j :=
    fun hm => (decDigits_no_uf _ _ _ hm).2 rfl
  cases u1 <;> cases u2 <;> cases f1 <;> cases f2 <;>
      simp only [if_pos, if_neg, Bool.false_eq_true, not_false_iff,
        if_true, if_false, List.nil_append] at hd
  all_goals
    first
    | exact decDigits_inj hd
    | exact decDigits_inj (List.append_cancel_left hd)
    | · exfalso
        first
        | exact hju (hd ▸ List.mem_cons_self 'u' _)
        | exact hjf (hd ▸ List.mem_cons_self 'f' _)
        | exact hiu (hd.symm ▸ List.mem_cons_self 'u' _)
        | exact hif (hd.symm ▸ List.mem_cons_self 'f' _)
        | simp at hd

/-! ## Heap connection pass: per-block characterization -/

/-- Does the block relate to this stack node id at all (as current or as
dangling pointer)? -/
def relatesBlock (blk : HeapBlock) (sid : String) : Bool :=
  isCurrentPtr blk sid || isDanglingPtr blk sid

/-- The net effect of one block's connection pass on one stack node. -/
def blockNodeUpdate (blk : HeapBlock) (haddr : String) (sn : NodeData) :
    NodeData :=
  if isCurrentPtr blk sn.id || isDanglingPtr blk sn.id then
    let sn1 :=
      { sn with data :=
          { sn.data with extraInfo :=
              { sn.data.extraInfo with pointingToAddress := some haddr } } }
    if isDanglingPtr blk sn.id then
      { sn1 with data :=
          { sn1.data with extraInfo :=
              { sn1.data.extraInfo with metadata := some "Dangling Pointer" } } }
    else sn1
  else sn

theorem blockNodeUpdate_id (blk : HeapBlock) (haddr : String) (sn : NodeData) :
    (blockNodeUpdate blk haddr sn).id = sn.id := by
  rw [blockNodeUpdate]
  split
  · split <;> rfl
  · rfl

theorem blockNodeUpdate_metadata_stable (blk : HeapBlock) (haddr : String)
    (sn : NodeData) (h : sn.data.extraInfo.metadata = some "Dangling Pointer") :
    (blockNodeUpdate blk haddr sn).data.extraInfo.metadata =
      some "Dangling Pointer" := by
  rw [blockNodeUpdate]
  split
  · split
    · rfl
    · exact h
  · exact h

theorem blockNodeUpdate_metadata_dang (blk : HeapBlock) (haddr : String)
    (sn : NodeData) (h : isDanglingPtr blk sn.id = true) :
    (blockNodeUpdate blk haddr sn).data.extraInfo.metadata =
      some "Dangling Pointer" := by
  rw [blockNodeUpdate]
  rw [h]
  simp

theorem blockNodeUpdate_not_related (blk : HeapBlock) (haddr : String)
    (sn : NodeData) (h : relatesBlock blk sn.id = false) :
    blockNodeUpdate blk haddr sn = sn := by
  rw [relatesBlock] at h
  rw [blockNodeUpdate, h]
  simp

theorem blockNodeUpdate_ptA (blk : HeapBlock) (haddr : String)
    (sn : NodeData) (h : relatesBlock blk sn.id = true) :
    (blockNodeUpdate blk haddr sn).data.extraInfo.pointingToAddress =
      some haddr := by
  rw [relatesBlock] at h
  rw [blockNodeUpdate, h]
  by_cases hd : isDanglingPtr blk sn.id = true <;> simp [hd]

/-- The connection pass of one block maps each stack node independently. -/
theorem heapStackFold_nodes (env : VizEnv) (blk : HeapBlock)
    (hid haddr : String) :
    ∀ (sns : List NodeData) (es : List EdgeData) (ctr : Nat),
      (heapStackFold env blk hid haddr sns es ctr).1 =
        sns.map (blockNodeUpdate blk haddr) := by
  intro sns
  induction sns with
  | nil => intro es ctr; rfl
  | cons sn rest ih =>
    intro es ctr
    rw [heapStackFold, List.map_cons]
    by_cases hrel : (isCurrentPtr blk sn.id || isDanglingPtr blk sn.id) = true
    · rw [if_pos hrel]
      simp only [ih]
      congr 1
      rw [blockNodeUpdate, if_pos hrel]
    · rw [if_neg hrel]
      simp only [ih]
      congr 1
      rw [blockNodeUpdate, if_neg hrel]

/-- The connection pass of one block appends one edge per related stack
node, in stack order; a dangling relation forces the `red` stroke on the
appended edge (after any color reuse for the current relation). -/
theorem heapStackFold_conns (env : VizEnv) (blk : HeapBlock)
    (hid haddr : String) :
    ∀ (sns : List NodeData) (es : List EdgeData) (ctr : Nat),
      ∃ L, (heapStackFold env blk hid haddr sns es ctr).2.1 = es ++ L ∧
        L.map (fun e => (e.source, e.target)) =
          (sns.filter (fun sn => relatesBlock blk sn.id)).map
            (fun sn => (sn.id, hid)) ∧
        ∀ e ∈ L, e.id = "e" ++ e.source ++ "-" ++ e.target ∧
          e.type = "straight" ∧ e.target = hid ∧
          relatesBlock blk e.source = true ∧
          (isDanglingPtr blk e.source = true →
            e.style.stroke = "red" ∧ e.markerEnd.color = "red") := by
  intro sns
  induction sns with
  | nil =>
    intro es ctr
    exact ⟨[], by simp [heapStackFold], by simp, by simp⟩
  | cons sn rest ih =>
    intro es ctr
    rw [heapStackFold]
    by_cases hrel : (isCurrentPtr blk sn.id || isDanglingPtr blk sn.id) = true
    · rw [if_pos hrel]
      obtain ⟨L', hL', hmap, hprops⟩ := ih
        (es ++ [createEdge ("e" ++ sn.id ++ "-" ++ hid) "straight" sn.id hid
          (if isDanglingPtr blk sn.id then "red"
            else if isCurrentPtr blk sn.id then
              reuseStroke es sn.id hid (env.cg ctr)
            else env.cg ctr)]) (ctr + 1)
      refine ⟨createEdge ("e" ++ sn.id ++ "-" ++ hid) "straight" sn.id hid
        (if isDanglingPtr blk sn.id then "red"
          else if isCurrentPtr blk sn.id then
            reuseStroke es sn.id hid (env.cg ctr)
          else env.cg ctr) :: L', ?_, ?_, ?_⟩
      · show (heapStackFold env blk hid haddr rest _ (ctr + 1)).2.1 = _
        rw [hL']
        simp
      · rw [List.map_cons, hmap, List.filter_cons,
          if_pos (show relatesBlock blk sn.id = true by
            rw [relatesBlock]; exact hrel)]
        simp [createEdge]
      · intro e he
        rcases List.mem_cons.1 he with rfl | he'
        · have hrel' : relatesBlock blk sn.id = true := by
            rw [relatesBlock]; exact hrel
          refine ⟨rfl, rfl, rfl, hrel', ?_⟩
          intro hd
          have hd' : isDanglingPtr blk sn.id = true := hd
          constructor
          · show (if isDanglingPtr blk sn.id = true then "red"
              else if isCurrentPtr blk sn.id = true then
                reuseStroke es sn.id hid (env.cg ctr)
              else env.cg ctr) = "red"
            rw [if_pos hd']
          · show (if isDanglingPtr blk sn.id = true then "red"
              else if isCurrentPtr blk sn.id = true then
                reuseStroke es sn.id hid (env.cg ctr)
              else env.cg ctr) = "red"
            rw [if_pos hd']
        · exact hprops e he'
    · rw [if_neg hrel]
      obtain ⟨L', hL', hmap, hprops⟩ := ih es (ctr + 1)
      refine ⟨L', hL', ?_, hprops⟩
      rw [hmap, List.filter_cons,
        if_neg (show ¬relatesBlock blk sn.id = true by
          rw [relatesBlock]; exact hrel)]

theorem heapNode1_id (node0 : NodeData) (b : Bool) :
    ((if b then { node0 with targetPosition := some .left } else node0) :
        NodeData).id = node0.id := by
  cases b <;> rfl

/-- Entries already accumulated in `heapNodesInner` are never revisited. -/
theorem heapBuildLoop_get?_acc (env : VizEnv) :
    ∀ (blocks : List HeapBlock) (acc sns : List NodeData) (es : List EdgeData)
      (ctr idx addr k : Nat), k < acc.length →
      (heapBuildLoop env blocks acc sns es ctr idx addr).1.get? k = acc.get? k := by
  intro blocks
  induction blocks with
  | nil => intro acc sns es ctr idx addr k _; rfl
  | cons blk rest ih =>
    intro acc sns es ctr idx addr k hk
    rw [heapBuildLoop]
    rw [ih _ _ _ _ _ _ k (by simp; omega)]
    exact List.get?_append hk

theorem heapBuildLoop_length (env : VizEnv) :
    ∀ (blocks : List HeapBlock) (acc sns : List NodeData) (es : List EdgeData)
      (ctr idx addr : Nat),
      (heapBuildLoop env blocks acc sns es ctr idx addr).1.length =
        acc.length + blocks.length := by
  intro blocks
  induction blocks with
  | nil => intro acc sns es ctr idx addr; simp [heapBuildLoop]
  | cons blk rest ih =>
    intro acc sns es ctr idx addr
    rw [heapBuildLoop, ih]
    simp
    omega

/-- The per-block result of the guard + connection pass of `heapBuildLoop`
(mutated stack nodes, connections, color counter, left-anchor flag). -/
def heapStepR (env : VizEnv) (blk : HeapBlock) (sns : List NodeData)
    (es : List EdgeData) (ctr idx addr : Nat) :
    List NodeData × List EdgeData × Nat × Bool :=
  if strIncludes
      (generateNodeId idx (decide (blk.blockState = "Unallocated"))
        (decide (blk.blockState = "Free"))) "unallocated" then
    (sns, es, ctr, false)
  else
    heapStackFold env blk
      (generateNodeId idx (decide (blk.blockState = "Unallocated"))
        (decide (blk.blockState = "Free")))
      (addrStr addr) sns es ctr

/-- The heap node pushed for one block of `heapBuildLoop`. -/
def heapStepNode (env : VizEnv) (blk : HeapBlock) (acc sns : List NodeData)
    (es : List EdgeData) (ctr idx addr : Nat) : NodeData :=
  if (heapStepR env blk sns es ctr idx addr).2.2.2 then
    { mkHeapNode env acc.getLast? blk
        (generateNodeId idx (decide (blk.blockState = "Unallocated"))
          (decide (blk.blockState = "Free"))) addr
        (decide (blk.blockState = "Free")) with
      targetPosition := some .left }
  else
    mkHeapNode env acc.getLast? blk
      (generateNodeId idx (decide (blk.blockState = "Unallocated"))
        (decide (blk.blockState = "Free"))) addr
      (decide (blk.blockState = "Free"))

theorem heapBuildLoop_step (env : VizEnv) (blk : HeapBlock)
    (rest : List HeapBlock) (acc sns : List NodeData) (es : List EdgeData)
    (ctr idx addr : Nat) :
    heapBuildLoop env (blk :: rest) acc sns es ctr idx addr =
      heapBuildLoop env rest
        (acc ++ [heapStepNode env blk acc sns es ctr idx addr])
        (heapStepR env blk sns es ctr idx addr).1
        (heapStepR env blk sns es ctr idx addr).2.1
        (heapStepR env blk sns es ctr idx addr).2.2.1
        (idx + 1) (addr + blk.size) := rfl

theorem heapStepNode_id (env : VizEnv) (blk : HeapBlock)
    (acc sns : List NodeData) (es : List EdgeData) (ctr idx addr : Nat) :
    (heapStepNode env blk acc sns es ctr idx addr).id =
      generateNodeId idx (decide (blk.blockState = "Unallocated"))
        (decide (blk.blockState = "Free")) :=
  (heapNode1_id _ _).trans rfl

/-- The `k`-th heap node produced for the `k`-th block carries the id of
the `generateNodeId` scheme at running index `idx + k`. -/
theorem heapBuildLoop_node_id (env : VizEnv) :
    ∀ (blocks : List HeapBlock) (acc sns : List NodeData) (es : List EdgeData)
      (ctr idx addr k : Nat) (blk : HeapBlock), blocks.get? k = some blk →
      ∃ node, (heapBuildLoop env blocks acc sns es ctr idx addr).1.get?
          (acc.length + k) = some node ∧
        node.id = generateNodeId (idx + k)
          (decide (blk.blockState = "Unallocated"))
          (decide (blk.blockState = "Free")) := by
  intro blocks
  induction blocks with
  | nil => intro acc sns es ctr idx addr k blk h; simp at h
  | cons blk0 rest ih =>
    intro acc sns es ctr idx addr k blk hk
    cases k with
    | zero =>
      have hblk : blk = blk0 := by
        have h2 : some blk0 = some blk := hk
        injection h2 with h2
        exact h2.symm
      subst hblk
      rw [heapBuildLoop_step]
      refine ⟨heapStepNode env blk acc sns es ctr idx addr, ?_, ?_⟩
      · rw [Nat.add_zero]
        rw [heapBuildLoop_get?_acc env rest]
        · exact List.get?_concat_length acc _
        · simp
      · rw [heapStepNode_id, Nat.add_zero]
    | succ k =>
      have hk' : rest.get? k = some blk := hk
      rw [heapBuildLoop_step]
      obtain ⟨node, hget, hid⟩ := ih
        (acc ++ [heapStepNode env blk0 acc sns es ctr idx addr])
        (heapStepR env blk0 sns es ctr idx addr).1
        (heapStepR env blk0 sns es ctr idx addr).2.1
        (heapStepR env blk0 sns es ctr idx addr).2.2.1
        (idx + 1) (addr + blk0.size) k blk hk'
      refine ⟨node, ?_, ?_⟩
      · have hlen : (acc ++ [heapStepNode env blk0 acc sns es ctr idx addr]).length + k
            = acc.length + (k + 1) := by simp; omega
        rw [← hlen]
        exact hget
      · rw [hid]
        congr 1
        omega

theorem guard_eq_unalloc (idx : Nat) (blk : HeapBlock) :
    strIncludes
        (generateNodeId idx (decide (blk.blockState = "Unallocated"))
          (decide (blk.blockState = "Free"))) "unallocated" =
      decide (blk.blockState = "Unallocated") :=
  strIncludes_generateNodeId_unallocated idx _ _

/-- The `(source, target)` pairs of the connections queued by the heap
pass, per block in traversal order. -/
def blocksPairs : List HeapBlock → List String → Nat → List (String × String)
  | [], _, _ => []
  | blk :: rest, sids, idx =>
    (if strIncludes
        (generateNodeId idx (decide (blk.blockState = "Unallocated"))
          (decide (blk.blockState = "Free"))) "unallocated" then []
      else
        (sids.filter (fun sid => relatesBlock blk sid)).map
          (fun sid => (sid,
            generateNodeId idx (decide (blk.blockState = "Unallocated"))
              (decide (blk.blockState = "Free"))))) ++
      blocksPairs rest sids (idx + 1)

theorem filter_map_ids (sns : List NodeData) (p : String → Bool) (hid : String) :
    (sns.filter (fun sn => p sn.id)).map (fun sn => (sn.id, hid)) =
      ((sns.map (fun n => n.id)).filter p).map (fun sid => (sid, hid)) := by
  induction sns with
  | nil => rfl
  | cons sn rest ih =>
    by_cases hp : p sn.id = true <;> simp [List.filter_cons, hp, ih]

theorem ids_blockNodeUpdate (blk : HeapBlock) (haddr : String)
    (sns : List NodeData) :
    (sns.map (blockNodeUpdate blk haddr)).map (fun n => n.id) =
      sns.map (fun n => n.id) := by
  rw [List.map_map]
  apply List.map_congr_left
  intro a _
  exact blockNodeUpdate_id blk haddr a

/-- Structure of the connection list produced by the heap pass: the edges
queued so far are extended, per block in order, by one edge per related
stack node; every queued edge has the deterministic id/type and, when its
source is dangling for its block, the fixed warning color. -/
theorem heapBuildLoop_conns (env : VizEnv) :
    ∀ (blocks : List HeapBlock) (acc sns : List NodeData) (es : List EdgeData)
      (ctr idx addr : Nat),
      ∃ L, (heapBuildLoop env blocks acc sns es ctr idx addr).2.2.1 = es ++ L ∧
        L.map (fun e => (e.source, e.target)) =
          blocksPairs blocks (sns.map (fun n => n.id)) idx ∧
        ∀ e ∈ L, e.id = "e" ++ e.source ++ "-" ++ e.target ∧
          e.type = "straight" ∧
          ∃ i blk, blocks.get? i = some blk ∧
            blk.blockState ≠ "Unallocated" ∧
            e.target = generateNodeId (idx + i)
              (decide (blk.blockState = "Unallocated"))
              (decide (blk.blockState = "Free")) ∧
            relatesBlock blk e.source = true ∧
            (isDanglingPtr blk e.source = true →
              e.style.stroke = "red" ∧ e.markerEnd.color = "red") := by
  intro blocks
  induction blocks with
  | nil =>
    intro acc sns es ctr idx addr
    exact ⟨[], by simp [heapBuildLoop], by simp [blocksPairs], by simp⟩
  | cons blk0 rest ih =>
    intro acc sns es ctr idx addr
    rw [heapBuildLoop_step]
    by_cases hg : strIncludes
        (generateNodeId idx (decide (blk0.blockState = "Unallocated"))
          (decide (blk0.blockState = "Free"))) "unallocated" = true
    · have hr : heapStepR env blk0 sns es ctr idx addr = (sns, es, ctr, false) := by
        rw [heapStepR, if_pos hg]
      rw [hr]
      obtain ⟨L, hL, hmap, hprops⟩ := ih
        (acc ++ [heapStepNode env blk0 acc sns es ctr idx addr])
        sns es ctr (idx + 1) (addr + blk0.size)
      refine ⟨L, hL, ?_, ?_⟩
      · rw [hmap, blocksPairs, if_pos hg, List.nil_append]
      · intro e he
        obtain ⟨hid', htype, i, blk, hblk, hstate, htgt, hrel, hred⟩ := hprops e he
        refine ⟨hid', htype, i + 1, blk, hblk, hstate, ?_, hrel, hred⟩
        rw [htgt, show idx + 1 + i = idx + (i + 1) from by omega]
    · have hr : heapStepR env blk0 sns es ctr idx addr =
          heapStackFold env blk0
            (generateNodeId idx (decide (blk0.blockState = "Unallocated"))
              (decide (blk0.blockState = "Free")))
            (addrStr addr) sns es ctr := by
        rw [heapStepR, if_neg hg]
      rw [hr]
      obtain ⟨L0, hL0, hmap0, hprops0⟩ := heapStackFold_conns env blk0
        (generateNodeId idx (decide (blk0.blockState = "Unallocated"))
          (decide (blk0.blockState = "Free")))
        (addrStr addr) sns es ctr
      obtain ⟨L1, hL1, hmap1, hprops1⟩ := ih
        (acc ++ [heapStepNode env blk0 acc sns es ctr idx addr])
        (heapStackFold env blk0
          (generateNodeId idx (decide (blk0.blockState = "Unallocated"))
            (decide (blk0.blockState = "Free")))
          (addrStr addr) sns es ctr).1
        (heapStackFold env blk0
          (generateNodeId idx (decide (blk0.blockState = "Unallocated"))
            (decide (blk0.blockState = "Free")))
          (addrStr addr) sns es ctr).2.1
        (heapStackFold env blk0
          (generateNodeId idx (decide (blk0.blockState = "Unallocated"))
            (decide (blk0.blockState = "Free")))
          (addrStr addr) sns es ctr).2.2.1
        (idx + 1) (addr + blk0.size)
      have hstate0 : blk0.blockState ≠ "Unallocated" := by
        intro hs
        apply hg
        rw [guard_eq_unalloc]
        simp [hs]
      refine ⟨L0 ++ L1, ?_, ?_, ?_⟩
      · rw [hL1, hL0]
        simp
      · rw [List.map_append, hmap0, hmap1, heapStackFold_nodes,
          ids_blockNodeUpdate, blocksPairs, if_neg hg, filter_map_ids]
      · intro e he
        rcases List.mem_append.1 he with he0 | he1
        · obtain ⟨hid', htype, htgt, hrel, hred⟩ := hprops0 e he0
          refine ⟨hid', htype, 0, blk0, rfl, hstate0, ?_, hrel, hred⟩
          rw [htgt, show idx = idx + 0 from by omega]
        · obtain ⟨hid', htype, i, blk, hblk, hstate, htgt, hrel, hred⟩ :=
            hprops1 e he1
          refine ⟨hid', htype, i + 1, blk, hblk, hstate, ?_, hrel, hred⟩
          rw [htgt, show idx + 1 + i = idx + (i + 1) from by omega]

/-- Once a stack node's metadata is `Dangling Pointer` — or some
non-unallocated block dangles it — the final stack node list records
`Dangling Pointer` at its index. -/
theorem heapBuildLoop_metadata (env : VizEnv) :
    ∀ (blocks : List HeapBlock) (acc sns : List NodeData) (es : List EdgeData)
      (ctr idx addr k : Nat) (sn : NodeData),
      sns.get? k = some sn →
      (sn.data.extraInfo.metadata = some "Dangling Pointer" ∨
        ∃ i blk, blocks.get? i = some blk ∧ blk.blockState ≠ "Unallocated" ∧
          isDanglingPtr blk sn.id = true) →
      ∃ sn', (heapBuildLoop env blocks acc sns es ctr idx addr).2.1.get? k =
          some sn' ∧
        sn'.data.extraInfo.metadata = some "Dangling Pointer" := by
  intro blocks
  induction blocks with
  | nil =>
    intro acc sns es ctr idx addr k sn hk hcase
    rcases hcase with hmd | ⟨i, blk, hblk, _⟩
    · exact ⟨sn, hk, hmd⟩
    · simp at hblk
  | cons blk0 rest ih =>
    intro acc sns es ctr idx addr k sn hk hcase
    rw [heapBuildLoop_step]
    by_cases hg : strIncludes
        (generateNodeId idx (decide (blk0.blockState = "Unallocated"))
          (decide (blk0.blockState = "Free"))) "unallocated" = true
    · have hr : heapStepR env blk0 sns es ctr idx addr = (sns, es, ctr, false) := by
        rw [heapStepR, if_pos hg]
      rw [hr]
      apply ih _ _ _ _ _ _ _ _ hk
      rcases hcase with hmd | ⟨i, blk, hblk, hstate, hdang⟩
      · exact Or.inl hmd
      · cases i with
        | zero =>
          exfalso
          apply hstate
          have h2 : some blk0 = some blk := hblk
          rw [guard_eq_unalloc] at hg
          injection h2 with h2
          rw [← h2]
          simpa using hg
        | succ i => exact Or.inr ⟨i, blk, hblk, hstate, hdang⟩
    · have hr : heapStepR env blk0 sns es ctr idx addr =
          heapStackFold env blk0
            (generateNodeId idx (decide (blk0.blockState = "Unallocated"))
              (decide (blk0.blockState = "Free")))
            (addrStr addr) sns es ctr := by
        rw [heapStepR, if_neg hg]
      rw [hr]
      have hk' : (heapStackFold env blk0
          (generateNodeId idx (decide (blk0.blockState = "Unallocated"))
            (decide (blk0.blockState = "Free")))
          (addrStr addr) sns es ctr).1.get? k =
          some (blockNodeUpdate blk0 (addrStr addr) sn) := by
        rw [heapStackFold_nodes, List.get?_map, hk]
        rfl
      apply ih _ _ _ _ _ _ _ _ hk'
      rcases hcase with hmd | ⟨i, blk, hblk, hstate, hdang⟩
      · exact Or.inl (blockNodeUpdate_metadata_stable blk0 _ sn hmd)
      · cases i with
        | zero =>
          have h2 : blk = blk0 := by
            have h3 : some blk0 = some blk := hblk
            injection h3 with h3
            exact h3.symm
          subst h2
          exact Or.inl (blockNodeUpdate_metadata_dang blk _ sn hdang)
        | succ i =>
          refine Or.inr ⟨i, blk, hblk, hstate, ?_⟩
          rw [blockNodeUpdate_id]
          exact hdang

/-- A stack node no remaining block relates to passes through the heap
pass unchanged. -/
theorem heapBuildLoop_ptA_preserved (env : VizEnv) :
    ∀ (blocks : List HeapBlock) (acc sns : List NodeData) (es : List EdgeData)
      (ctr idx addr k : Nat) (sn : NodeData),
      sns.get? k = some sn →
      (∀ j blk, blocks.get? j = some blk → blk.blockState ≠ "Unallocated" →
        relatesBlock blk sn.id = false) →
      (heapBuildLoop env blocks acc sns es ctr idx addr).2.1.get? k = some sn := by
  intro blocks
  induction blocks with
  | nil => intro acc sns es ctr idx addr k sn hk _; exact hk
  | cons blk0 rest ih =>
    intro acc sns es ctr idx addr k sn hk hnone
    rw [heapBuildLoop_step]
    by_cases hg : strIncludes
        (generateNodeId idx (decide (blk0.blockState = "Unallocated"))
          (decide (blk0.blockState = "Free"))) "unallocated" = true
    · have hr : heapStepR env blk0 sns es ctr idx addr = (sns, es, ctr, false) := by
        rw [heapStepR, if_pos hg]
      rw [hr]
      exact ih _ _ _ _ _ _ _ _ hk
        fun j blk hblk hstate => hnone (j + 1) blk hblk hstate
    · have hr : heapStepR env blk0 sns es ctr idx addr =
          heapStackFold env blk0
            (generateNodeId idx (decide (blk0.blockState = "Unallocated"))
              (decide (blk0.blockState = "Free")))
            (addrStr addr) sns es ctr := by
        rw [heapStepR, if_neg hg]
      rw [hr]
      have hstate0 : blk0.blockState ≠ "Unallocated" := by
        intro hs
        apply hg
        rw [guard_eq_unalloc]
        simp [hs]
      have hupd : blockNodeUpdate blk0 (addrStr addr) sn = sn :=
        blockNodeUpdate_not_related blk0 _ sn
          (hnone 0 blk0 rfl hstate0)
      have hk' : (heapStackFold env blk0
          (generateNodeId idx (decide (blk0.blockState = "Unallocated"))
            (decide (blk0.blockState = "Free")))
          (addrStr addr) sns es ctr).1.get? k = some sn := by
        rw [heapStackFold_nodes, List.get?_map, hk]
        simp [hupd]
      exact ih _ _ _ _ _ _ _ _ hk'
        fun j blk hblk hstate => hnone (j + 1) blk hblk hstate

/-- When exactly one block relates to a stack node, the final stack node
records that block's synthesized heap address. -/
theorem heapBuildLoop_ptA (env : VizEnv) :
    ∀ (blocks : List HeapBlock) (acc sns : List NodeData) (es : List EdgeData)
      (ctr idx addr k : Nat) (sn : NodeData) (i : Nat) (blk : HeapBlock),
      sns.get? k = some sn →
      blocks.get? i = some blk → blk.blockState ≠ "Unallocated" →
      relatesBlock blk sn.id = true →
      (∀ j blk', blocks.get? j = some blk' → j ≠ i →
        blk'.blockState ≠ "Unallocated" → relatesBlock blk' sn.id = false) →
      ∃ sn', (heapBuildLoop env blocks acc sns es ctr idx addr).2.1.get? k =
          some sn' ∧
        sn'.data.extraInfo.pointingToAddress =
          some (addrStr (addr + (((blocks.take i).map (fun b => b.size)).sum))) := by
  intro blocks
  induction blocks with
  | nil => intro acc sns es ctr idx addr k sn i blk _ hblk; simp at hblk
  | cons blk0 rest ih =>
    intro acc sns es ctr idx addr k sn i blk hk hblk hstate hrel huniq
    cases i with
    | zero =>
      have h2 : blk = blk0 := by
        have h3 : some blk0 = some blk := hblk
        injection h3 with h3
        exact h3.symm
      subst h2
      rw [heapBuildLoop_step]
      have hg : ¬strIncludes
          (generateNodeId idx (decide (blk.blockState = "Unallocated"))
            (decide (blk.blockState = "Free"))) "unallocated" = true := by
        rw [guard_eq_unalloc]
        simpa using hstate
      have hr : heapStepR env blk sns es ctr idx addr =
          heapStackFold env blk
            (generateNodeId idx (decide (blk.blockState = "Unallocated"))
              (decide (blk.blockState = "Free")))
            (addrStr addr) sns es ctr := by
        rw [heapStepR, if_neg hg]
      rw [hr]
      have hk' : (heapStackFold env blk
          (generateNodeId idx (decide (blk.blockState = "Unallocated"))
            (decide (blk.blockState = "Free")))
          (addrStr addr) sns es ctr).1.get? k =
          some (blockNodeUpdate blk (addrStr addr) sn) := by
        rw [heapStackFold_nodes, List.get?_map, hk]
        rfl
      have hfinal := heapBuildLoop_ptA_preserved env rest
        (acc ++ [heapStepNode env blk acc sns es ctr idx addr])
        (heapStackFold env blk
          (generateNodeId idx (decide (blk.blockState = "Unallocated"))
            (decide (blk.blockState = "Free"))) (addrStr addr) sns es ctr).1
        (heapStackFold env blk
          (generateNodeId idx (decide (blk.blockState = "Unallocated"))
            (decide (blk.blockState = "Free"))) (addrStr addr) sns es ctr).2.1
        (heapStackFold env blk
          (generateNodeId idx (decide (blk.blockState = "Unallocated"))
            (decide (blk.blockState = "Free"))) (addrStr addr) sns es ctr).2.2.1
        (idx + 1) (addr + blk.size) k
        (blockNodeUpdate blk (addrStr addr) sn) hk'
        (fun j blk' hblk' hstate' => by
          rw [blockNodeUpdate_id]
          exact huniq (j + 1) blk' hblk' (by omega) hstate')
      refine ⟨blockNodeUpdate blk (addrStr addr) sn, hfinal, ?_⟩
      rw [blockNodeUpdate_ptA blk _ sn hrel]
      simp
    | succ i' =>
      have hblk' : rest.get? i' = some blk := hblk
      rw [heapBuildLoop_step]
      by_cases hg : strIncludes
          (generateNodeId idx (decide (blk0.blockState = "Unallocated"))
            (decide (blk0.blockState = "Free"))) "unallocated" = true
      · have hr : heapStepR env blk0 sns es ctr idx addr = (sns, es, ctr, false) := by
          rw [heapStepR, if_pos hg]
        rw [hr]
        obtain ⟨sn', hget, hptA⟩ := ih
          (acc ++ [heapStepNode env blk0 acc sns es ctr idx addr])
          sns es ctr (idx + 1) (addr + blk0.size) k sn i' blk hk hblk' hstate hrel
          (fun j blk'' hblk'' hne hstate'' =>
            huniq (j + 1) blk'' hblk'' (by omega) hstate'')
        refine ⟨sn', hget, ?_⟩
        rw [hptA, show addr + blk0.size +
            (List.map (fun b => b.size) (List.take i' rest)).sum =
            addr + (List.map (fun b => b.size)
              (List.take (i' + 1) (blk0 :: rest))).sum from by
          simp [List.take_succ_cons]
          omega]
      · have hstate0 : blk0.blockState ≠ "Unallocated" := by
          intro hs
          apply hg
          rw [guard_eq_unalloc]
          simp [hs]
        have hrel0 : relatesBlock blk0 sn.id = false :=
          huniq 0 blk0 rfl (by omega) hstate0
        have hr : heapStepR env blk0 sns es ctr idx addr =
            heapStackFold env blk0
              (generateNodeId idx (decide (blk0.blockState = "Unallocated"))
                (decide (blk0.blockState = "Free")))
              (addrStr addr) sns es ctr := by
          rw [heapStepR, if_neg hg]
        rw [hr]
        have hupd : blockNodeUpdate blk0 (addrStr addr) sn = sn :=
          blockNodeUpdate_not_related blk0 _ sn hrel0
        have hk' : (heapStackFold env blk0
            (generateNodeId idx (decide (blk0.blockState = "Unallocated"))
              (decide (blk0.blockState = "Free")))
            (addrStr addr) sns es ctr).1.get? k = some sn := by
          rw [heapStackFold_nodes, List.get?_map, hk]
          simp [hupd]
        obtain ⟨sn', hget, hptA⟩ := ih
          (acc ++ [heapStepNode env blk0 acc sns es ctr idx addr])
          _ _ _ (idx + 1) (addr + blk0.size) k sn i' blk hk' hblk' hstate hrel
          (fun j blk'' hblk'' hne hstate'' =>
            huniq (j + 1) blk'' hblk'' (by omega) hstate'')
        refine ⟨sn', hget, ?_⟩
        rw [hptA, show addr + blk0.size +
            (List.map (fun b => b.size) (List.take i' rest)).sum =
            addr + (List.map (fun b => b.size)
              (List.take (i' + 1) (blk0 :: rest))).sum from by
          simp [List.take_succ_cons]
          omega]

theorem chain_first {base : Nat} {ns : List NodeData} (h : chainFrom base ns)
    {n : NodeData} (h0 : ns.get? 0 = some n) :
    n.data.extraInfo.address = addrStr base := by
  have := h 0 n h0
  simpa [sumSizes] using this

theorem chain_consecutive {base : Nat} {ns : List NodeData}
    (h : chainFrom base ns) {j : Nat} {n n' : NodeData}
    (hj : ns.get? j = some n) (hj' : ns.get? (j + 1) = some n') :
    ∃ a : Nat, n.data.extraInfo.address = addrStr a ∧
      n'.data.extraInfo.address = addrStr (a + n.size) := by
  refine ⟨base + sumSizes (ns.take j), h j n hj, ?_⟩
  rw [h (j + 1) n' hj']
  congr 1
  rw [List.take_succ, sumSizes_append, ← List.get?_eq_getElem?, hj]
  have : sumSizes (some n).toList = n.size := by simp [sumSizes]
  rw [this]
  omega


theorem useStackNodesCompute_chain (env : VizEnv) (stack : List StackSymbol)
    (ctr : Nat) : chainFrom 0xbfffffff (useStackNodesCompute env stack ctr).1 :=
  chainFrom_of_proj_eq (useStackNodesCompute_proj env stack ctr)
    (stackBuildLoop_chain env 0xbfffffff stack [] 0xbfffffff (chainFrom_nil _)
      (by simp [sumSizes]))

theorem useHeapNodesCompute_chain (env : VizEnv) (heap : List HeapBlock)
    (sns : List NodeData) (ctr : Nat) :
    chainFrom 0x00400000 (useHeapNodesCompute env heap sns ctr).1 :=
  heapBuildLoop_chain env 0x00400000 heap [] sns [] ctr 0 0x00400000
    (chainFrom_nil _) (by simp [sumSizes])

/-! ## Intra-stack pointer resolution (phase 2 of the stack builder) -/

/-- The identification signature of a stack node: id, `data.type` tag, and
declared pointer target. It is invariant under the connection pass and is
fully determined by the input symbol. -/
def stackSig (n : NodeData) : String × String × Option String :=
  (n.id, n.data.dataType, n.data.extraInfo.pointingToLabel)

/-- The signature contributed by one input symbol (`none` for a malformed
entry, which the build loop skips). -/
def symSig : StackSymbol → Option (String × String × Option String)
  | .variable_ name _ _ vtype => some (name, vtype, none)
  | .pointer name _ tgt => some (name, "Pointer", tgt)
  | .malformed => none

theorem ids_of_proj {a b : List NodeData}
    (h : a.map stackProj = b.map stackProj) :
    a.map (fun n => n.id) = b.map (fun n => n.id) := by
  have h2 := congrArg (List.map
    (fun q : String × String × Option String × String × Nat => q.1)) h
  rw [List.map_map, List.map_map] at h2
  exact h2

theorem stackBuildLoop_sig (env : VizEnv) :
    ∀ (syms : List StackSymbol) (acc : List NodeData) (addr : Nat),
      (stackBuildLoop env syms acc addr).map stackSig =
        acc.map stackSig ++ syms.filterMap symSig := by
  intro syms
  induction syms with
  | nil => intro acc addr; simp [stackBuildLoop]
  | cons s rest ih =>
    intro acc addr
    cases s with
    | variable_ name size value vtype =>
      rw [stackBuildLoop, ih]
      simp [symSig, stackSig, mkVariableNode, List.filterMap_cons]
    | pointer name psize tgt =>
      rw [stackBuildLoop, ih]
      simp [symSig, stackSig, mkPointerNode, List.filterMap_cons]
    | malformed =>
      rw [stackBuildLoop, ih]
      simp [symSig, List.filterMap_cons]

theorem get?_proj_transfer {β : Type} {f : NodeData → β} {a b : List NodeData}
    (h : a.map f = b.map f) {i : Nat} {m : NodeData}
    (hm : b.get? i = some m) : ∃ m', a.get? i = some m' ∧ f m' = f m := by
  have h2 : (a.get? i).map f = some (f m) := by
    rw [← List.get?_map, h, List.get?_map, hm]
    rfl
  rcases ha : a.get? i with _ | m'
  · rw [ha] at h2; cases h2
  · rw [ha] at h2
    have h3 : some (f m') = some (f m) := h2
    injection h3 with h3
    exact ⟨m', rfl, h3⟩

theorem get?_set_self {α} : ∀ (l : List α) (i : Nat) (x a : α),
    l.get? i = some a → (l.set i x).get? i = some x := by
  intro l
  induction l with
  | nil => intro i x a h; simp at h
  | cons y tl ih =>
    intro i x a h
    cases i with
    | zero => rfl
    | succ i => exact ih i x a h

theorem get?_set_ne {α} : ∀ (l : List α) (i j : Nat) (x : α), i ≠ j →
    (l.set i x).get? j = l.get? j := by
  intro l
  induction l with
  | nil => intro i j x _; simp
  | cons y tl ih =>
    intro i j x hij
    cases i with
    | zero =>
      cases j with
      | zero => exact absurd rfl hij
      | succ j => rfl
    | succ i =>
      cases j with
      | zero => rfl
      | succ j => exact ih i j x (fun he => hij (by rw [he]))

/-- Setting an index to a node with the same id leaves the id found at every
index unchanged (up to the witness node). -/
theorem get?_set_trace {l : List NodeData} {i : Nat} {x x₀ : NodeData}
    (hx₀ : l.get? i = some x₀) (hxid : x.id = x₀.id) :
    ∀ (j : Nat) (m : NodeData), (l.set i x).get? j = some m →
      ∃ m₀, l.get? j = some m₀ ∧ m.id = m₀.id := by
  intro j m hm
  by_cases hji : j = i
  · subst hji
    have h2 : (l.set j x).get? j = some x := get?_set_self l j x x₀ hx₀
    have h3 : some m = some x := by rw [← hm, h2]
    injection h3 with h3
    exact ⟨x₀, hx₀, by rw [h3, hxid]⟩
  · rw [get?_set_ne l i j x (fun he => hji he.symm)] at hm
    exact ⟨m, hm, rfl⟩

/-- With no matching index in `js`, the inner connection loop is the
identity. -/
theorem phase2Inner_skip (env : VizEnv) (i : Nat) :
    ∀ (js : List Nat) (arr : List NodeData) (es : List EdgeData) (ctr : Nat),
      (∀ j ∈ js, ∀ nd tn : NodeData, arr.get? i = some nd →
        arr.get? j = some tn →
        nd.data.extraInfo.pointingToLabel ≠ some tn.id) →
      phase2Inner env i js arr es ctr = (arr, es, ctr) := by
  intro js
  induction js with
  | nil => intro arr es ctr _; rfl
  | cons j js ih =>
    intro arr es ctr h
    rw [phase2Inner]
    rcases hi : arr.get? i with _ | nd
    · simp only [hi]
      exact ih arr es ctr (fun j' hj' => h j' (by simp [hj']))
    rcases hj : arr.get? j with _ | tn
    · simp only [hi, hj]
      exact ih arr es ctr (fun j' hj' => h j' (by simp [hj']))
    simp only [hi, hj]
    rcases hl : nd.data.extraInfo.pointingToLabel with _ | lbl
    · exact ih arr es ctr (fun j' hj' => h j' (by simp [hj']))
    by_cases hid : tn.id = lbl
    · exact absurd (by rw [hl, hid]) (h j (by simp) nd tn hi hj)
    · simp only [hid, if_false]
      exact ih arr es ctr (fun j' hj' => h j' (by simp [hj']))

theorem phase2Inner_append (env : VizEnv) (i : Nat) :
    ∀ (a b : List Nat) (arr : List NodeData) (es : List EdgeData) (ctr : Nat),
      phase2Inner env i (a ++ b) arr es ctr =
        phase2Inner env i b (phase2Inner env i a arr es ctr).1
          (phase2Inner env i a arr es ctr).2.1
          (phase2Inner env i a arr es ctr).2.2 := by
  intro a
  induction a with
  | nil => intro b arr es ctr; rfl
  | cons j a ih =>
    intro b arr es ctr
    rw [List.cons_append, phase2Inner, phase2Inner]
    rcases hi : arr.get? i with _ | nd
    · simp only [hi]; exact ih b arr es ctr
    rcases hj : arr.get? j with _ | tn
    · simp only [hi, hj]; exact ih b arr es ctr
    simp only [hi, hj]
    rcases hl : nd.data.extraInfo.pointingToLabel with _ | lbl
    · exact ih b arr es ctr
    by_cases hid : tn.id = lbl
    · simp only [hid, if_true]
      exact ih b _ _ _
    · simp only [hid, if_false]
      exact ih b arr es ctr

/-- Every edge appended by the inner connection loop carries the id of the
outer node as source, and has the deterministic id and the `step` type. -/
theorem phase2Inner_edges (env : VizEnv) (i : Nat) :
    ∀ (js : List Nat) (arr : List NodeData) (es : List EdgeData) (ctr : Nat),
      ∃ L, (phase2Inner env i js arr es ctr).2.1 = es ++ L ∧
        ∀ e ∈ L, (arr.get? i).map (fun n => n.id) = some e.source ∧
          e.id = "e" ++ e.source ++ "-" ++ e.target ∧ e.type = "step" := by
  intro js
  induction js with
  | nil => intro arr es ctr; exact ⟨[], by simp [phase2Inner], by simp⟩
  | cons j js ih =>
    intro arr es ctr
    rw [phase2Inner]
    rcases hi : arr.get? i with _ | nd
    · simp only [hi]
      have ih' := ih arr es ctr
      rw [hi] at ih'
      exact ih'
    rcases hj : arr.get? j with _ | tn
    · simp only [hi, hj]
      have ih' := ih arr es ctr
      rw [hi] at ih'
      exact ih'
    simp only [hi, hj]
    rcases hl : nd.data.extraInfo.pointingToLabel with _ | lbl
    · have ih' := ih arr es ctr
      rw [hi] at ih'
      exact ih'
    by_cases hid : tn.id = lbl
    · simp only [hid, if_true]
      have h1i : (arr.set i (ptrUpdate tn lbl nd)).get? i =
          some (ptrUpdate tn lbl nd) := get?_set_self arr i _ nd hi
      rcases hj1 : (arr.set i (ptrUpdate tn lbl nd)).get? j with _ | x
      · simp only [hj1]
        rcases ih (arr.set i (ptrUpdate tn lbl nd))
          (es ++ [createEdge ("e" ++ nd.id ++ "-" ++ lbl) "step" nd.id
            lbl (env.cg ctr)]) (ctr + 1) with ⟨L, hL, hprop⟩
        refine ⟨createEdge ("e" ++ nd.id ++ "-" ++ lbl) "step" nd.id lbl
          (env.cg ctr) :: L, ?_, ?_⟩
        · rw [hL, List.append_assoc, List.singleton_append]
        · intro e he
          rcases List.mem_cons.1 he with he1 | he2
          · subst he1
            exact ⟨rfl, rfl, rfl⟩
          · rcases hprop e he2 with ⟨hsrc, hshape⟩
            rw [h1i] at hsrc
            simp only [Option.map_some'] at hsrc
            refine ⟨?_, hshape⟩
            exact hsrc
      · simp only [hj1]
        rcases ih ((arr.set i (ptrUpdate tn lbl nd)).set j (tgtUpdate x))
          (es ++ [createEdge ("e" ++ nd.id ++ "-" ++ lbl) "step" nd.id
            lbl (env.cg ctr)]) (ctr + 1) with ⟨L, hL, hprop⟩
        refine ⟨createEdge ("e" ++ nd.id ++ "-" ++ lbl) "step" nd.id lbl
          (env.cg ctr) :: L, ?_, ?_⟩
        · rw [hL, List.append_assoc, List.singleton_append]
        · intro e he
          rcases List.mem_cons.1 he with he1 | he2
          · subst he1
            exact ⟨rfl, rfl, rfl⟩
          · rcases hprop e he2 with ⟨hsrc, hshape⟩
            have h2i : ∃ m, ((arr.set i (ptrUpdate tn lbl nd)).set j
                (tgtUpdate x)).get? i = some m ∧ m.id = nd.id := by
              by_cases hji : j = i
              · subst hji
                have hx : x = ptrUpdate tn lbl nd := by
                  have h4 : some x = some (ptrUpdate tn lbl nd) := by
                    rw [← hj1, h1i]
                  injection h4
                refine ⟨tgtUpdate x, get?_set_self _ j _ x hj1, ?_⟩
                rw [hx]
                rfl
              · refine ⟨ptrUpdate tn lbl nd, ?_, rfl⟩
                rw [get?_set_ne _ j i _ hji]
                exact h1i
            rcases h2i with ⟨m, hmget, hmid⟩
            rw [hmget] at hsrc
            simp only [Option.map_some'] at hsrc
            refine ⟨?_, hshape⟩
            simp only [Option.map_some']
            rw [← hsrc, hmid]
    · simp only [hid, if_false]
      have ih' := ih arr es ctr
      rw [hi] at ih'
      exact ih'


/-- A property of the node at index `k` that is stable under `tgtUpdate`
(and under `ptrUpdate` when `i = k`) survives the inner connection loop. -/
theorem phase2Inner_pres (env : VizEnv) (i k : Nat) (P : NodeData → Prop)
    (hPt : ∀ n, P n → P (tgtUpdate n))
    (hPp : ∀ tn lbl n, i = k → P n → P (ptrUpdate tn lbl n)) :
    ∀ (js : List Nat) (arr : List NodeData) (es : List EdgeData) (ctr : Nat)
      (n : NodeData), arr.get? k = some n → P n →
      ∃ n', (phase2Inner env i js arr es ctr).1.get? k = some n' ∧ P n' := by
  intro js
  induction js with
  | nil => intro arr es ctr n hk hP; exact ⟨n, hk, hP⟩
  | cons j js ih =>
    intro arr es ctr n hk hP
    rw [phase2Inner]
    rcases hi : arr.get? i with _ | nd
    · simp only [hi]; exact ih arr es ctr n hk hP
    rcases hj : arr.get? j with _ | tn
    · simp only [hi, hj]; exact ih arr es ctr n hk hP
    simp only [hi, hj]
    rcases hl : nd.data.extraInfo.pointingToLabel with _ | lbl
    · exact ih arr es ctr n hk hP
    by_cases hid : tn.id = lbl
    · simp only [hid, if_true]
      have h1 : ∃ m, (arr.set i (ptrUpdate tn lbl nd)).get? k = some m ∧
          P m := by
        by_cases hik : i = k
        · subst hik
          have hnd : nd = n := by
            have h2 : some nd = some n := by rw [← hi, hk]
            injection h2
          exact ⟨ptrUpdate tn lbl nd, get?_set_self arr i _ nd hi,
            hPp tn lbl nd rfl (by rw [hnd]; exact hP)⟩
        · refine ⟨n, ?_, hP⟩
          rw [get?_set_ne arr i k _ hik]
          exact hk
      rcases h1 with ⟨m, h1k, h1P⟩
      rcases hj1 : (arr.set i (ptrUpdate tn lbl nd)).get? j with _ | x
      · simp only [hj1]
        exact ih _ _ _ m h1k h1P
      · simp only [hj1]
        by_cases hjk : j = k
        · subst hjk
          have hx : x = m := by
            have h2 : some x = some m := by rw [← hj1, h1k]
            injection h2
          have hset : ((arr.set i (ptrUpdate tn lbl nd)).set j
              (tgtUpdate x)).get? j = some (tgtUpdate m) := by
            rw [← hx]
            exact get?_set_self (arr.set i (ptrUpdate tn lbl nd)) j
              (tgtUpdate x) x hj1
          exact ih _ _ _ (tgtUpdate m) hset (hPt m h1P)
        · have hset : ((arr.set i (ptrUpdate tn lbl nd)).set j
              (tgtUpdate x)).get? k = some m := by
            rw [get?_set_ne _ j k _ hjk]
            exact h1k
          exact ih _ _ _ m hset h1P
    · simp only [hid, if_false]
      exact ih arr es ctr n hk hP

/-- A property stable under both in-place updates survives the whole outer
connection loop. -/
theorem phase2Outer_pres (env : VizEnv) (k : Nat) (P : NodeData → Prop)
    (hPt : ∀ n, P n → P (tgtUpdate n))
    (hPp : ∀ tn lbl n, P n → P (ptrUpdate tn lbl n)) :
    ∀ (is : List Nat) (arr : List NodeData) (es : List EdgeData) (ctr : Nat)
      (n : NodeData), arr.get? k = some n → P n →
      ∃ n', (phase2Outer env is arr es ctr).1.get? k = some n' ∧ P n' := by
  intro is
  induction is with
  | nil => intro arr es ctr n hk hP; exact ⟨n, hk, hP⟩
  | cons i is ih =>
    intro arr es ctr n hk hP
    rw [phase2Outer]
    rcases hi : arr.get? i with _ | nd
    · simp only [hi]; exact ih arr es ctr n hk hP
    simp only [hi]
    by_cases hp : nd.data.dataType = "Pointer"
    · simp only [hp, if_true]
      rcases phase2Inner_pres env i k P hPt
        (fun tn lbl m _ hPm => hPp tn lbl m hPm)
        (List.range arr.length) arr es ctr n hk hP with ⟨m, hm, hPm⟩
      exact ih _ _ _ m hm hPm
    · simp only [hp, if_false]
      exact ih arr es ctr n hk hP

/-- A property stable under `tgtUpdate` at an index the outer loop never
visits survives the outer connection loop. -/
theorem phase2Outer_pres_ne (env : VizEnv) (k : Nat) (P : NodeData → Prop)
    (hPt : ∀ n, P n → P (tgtUpdate n)) :
    ∀ (is : List Nat), k ∉ is →
      ∀ (arr : List NodeData) (es : List EdgeData) (ctr : Nat)
        (n : NodeData), arr.get? k = some n → P n →
        ∃ n', (phase2Outer env is arr es ctr).1.get? k = some n' ∧ P n' := by
  intro is
  induction is with
  | nil => intro _ arr es ctr n hk hP; exact ⟨n, hk, hP⟩
  | cons i is ih =>
    intro hnotin arr es ctr n hk hP
    have hik : i ≠ k := fun he => hnotin (by simp [he])
    have hnotin' : k ∉ is := fun hm => hnotin (by simp [hm])
    rw [phase2Outer]
    rcases hi : arr.get? i with _ | nd
    · simp only [hi]; exact ih hnotin' arr es ctr n hk hP
    simp only [hi]
    by_cases hp : nd.data.dataType = "Pointer"
    · simp only [hp, if_true]
      rcases phase2Inner_pres env i k P hPt
        (fun tn lbl m hik' hPm => absurd hik' hik)
        (List.range arr.length) arr es ctr n hk hP with ⟨m, hm, hPm⟩
      exact ih hnotin' _ _ _ m hm hPm
    · simp only [hp, if_false]
      exact ih hnotin' arr es ctr n hk hP

theorem phase2Outer_append (env : VizEnv) :
    ∀ (a b : List Nat) (arr : List NodeData) (es : List EdgeData) (ctr : Nat),
      phase2Outer env (a ++ b) arr es ctr =
        phase2Outer env b (phase2Outer env a arr es ctr).1
          (phase2Outer env a arr es ctr).2.1
          (phase2Outer env a arr es ctr).2.2 := by
  intro a
  induction a with
  | nil => intro b arr es ctr; rfl
  | cons i a ih =>
    intro b arr es ctr
    rw [List.cons_append, phase2Outer, phase2Outer]
    rcases hi : arr.get? i with _ | nd
    · simp only [hi]; exact ih b arr es ctr
    simp only [hi]
    by_cases hp : nd.data.dataType = "Pointer"
    · simp only [hp, if_true]
      exact ih b _ _ _
    · simp only [hp, if_false]
      exact ih b arr es ctr

/-- Every edge appended by the outer connection loop has as source the id of
a node at one of the visited indices, and has the deterministic id and the
`step` type. -/
theorem phase2Outer_edges (env : VizEnv) :
    ∀ (is : List Nat) (arr : List NodeData) (es : List EdgeData) (ctr : Nat),
      ∃ L, (phase2Outer env is arr es ctr).2.1 = es ++ L ∧
        ∀ e ∈ L, (∃ i, i ∈ is ∧
            (arr.map (fun n => n.id)).get? i = some e.source) ∧
          e.id = "e" ++ e.source ++ "-" ++ e.target ∧ e.type = "step" := by
  intro is
  induction is with
  | nil => intro arr es ctr; exact ⟨[], by simp [phase2Outer], by simp⟩
  | cons i is ih =>
    intro arr es ctr
    rw [phase2Outer]
    rcases hi : arr.get? i with _ | nd
    · simp only [hi]
      rcases ih arr es ctr with ⟨L, hL, hprop⟩
      refine ⟨L, hL, fun e he => ?_⟩
      rcases hprop e he with ⟨⟨i', hi', hsrc⟩, hshape⟩
      exact ⟨⟨i', by simp [hi'], hsrc⟩, hshape⟩
    simp only [hi]
    by_cases hp : nd.data.dataType = "Pointer"
    · simp only [hp, if_true]
      rcases phase2Inner_edges env i (List.range arr.length) arr es ctr with
        ⟨L₀, hL₀, hprop₀⟩
      rcases ih (phase2Inner env i (List.range arr.length) arr es ctr).1
        (phase2Inner env i (List.range arr.length) arr es ctr).2.1
        (phase2Inner env i (List.range arr.length) arr es ctr).2.2 with
        ⟨L₁, hL₁, hprop₁⟩
      have hids : (phase2Inner env i (List.range arr.length) arr es
          ctr).1.map (fun n => n.id) = arr.map (fun n => n.id) :=
        ids_of_proj (phase2Inner_proj env i _ arr es ctr)
      refine ⟨L₀ ++ L₁, ?_, ?_⟩
      · rw [hL₁, hL₀, List.append_assoc]
      · intro e he
        rcases List.mem_append.1 he with h0 | h1
        · rcases hprop₀ e h0 with ⟨hsrc, hshape⟩
          refine ⟨⟨i, by simp, ?_⟩, hshape⟩
          rw [List.get?_map]
          exact hsrc
        · rcases hprop₁ e h1 with ⟨⟨i', hi', hsrc⟩, hshape⟩
          refine ⟨⟨i', by simp [hi'], ?_⟩, hshape⟩
          rw [← hids]
          exact hsrc
    · simp only [hp, if_false]
      rcases ih arr es ctr with ⟨L, hL, hprop⟩
      refine ⟨L, hL, fun e he => ?_⟩
      rcases hprop e he with ⟨⟨i', hi', hsrc⟩, hshape⟩
      exact ⟨⟨i', by simp [hi'], hsrc⟩, hshape⟩


/-- Positions of two nodes with the same id coincide when all ids are
pairwise distinct. -/
theorem id_unique {ns : List NodeData}
    (hnd : (ns.map (fun n => n.id)).Nodup) {a b : Nat} {m m' : NodeData}
    (ha : ns.get? a = some m) (hb : ns.get? b = some m')
    (hid : m.id = m'.id) : a = b := by
  have h1 : (ns.map (fun n => n.id)).get? a = some m.id := by
    rw [List.get?_map, ha]
    rfl
  have h2 : (ns.map (fun n => n.id)).get? b = some m'.id := by
    rw [List.get?_map, hb]
    rfl
  rcases List.get?_eq_some.1 h1 with ⟨hlt, -⟩
  apply List.getElem?_inj hlt hnd
  rw [← List.get?_eq_getElem?, ← List.get?_eq_getElem?, h1, h2, hid]

/-- Running the inner connection loop over a list of indices with exactly
one match (at `j₀`) appends exactly one edge, advances the color counter
once, records the target's address and display value on the pointer node,
and puts both anchors of the target node on its right side. -/
theorem phase2Inner_single (env : VizEnv) (i j₀ : Nat) (js1 js2 : List Nat)
    (arr : List NodeData) (es : List EdgeData) (ctr : Nat)
    (nd tn : NodeData) (lbl : String)
    (hi : arr.get? i = some nd) (hj : arr.get? j₀ = some tn)
    (hlbl : nd.data.extraInfo.pointingToLabel = some lbl) (hid : tn.id = lbl)
    (hpre : ∀ j ∈ js1, ∀ m : NodeData, arr.get? j = some m → m.id ≠ lbl)
    (hpost : ∀ j ∈ js2, ∀ m : NodeData, arr.get? j = some m → m.id ≠ lbl) :
    ∃ arr', phase2Inner env i (js1 ++ j₀ :: js2) arr es ctr =
        (arr', es ++ [createEdge ("e" ++ nd.id ++ "-" ++ lbl) "step" nd.id
          lbl (env.cg ctr)], ctr + 1) ∧
      (∃ pn, arr'.get? i = some pn ∧ pn.data.value = "&" ++ lbl ∧
        pn.data.extraInfo.pointingToAddress =
          some tn.data.extraInfo.address) ∧
      (∃ qn, arr'.get? j₀ = some qn ∧ qn.sourcePosition = some .right ∧
        qn.targetPosition = some .right) := by
  have hskip1 : phase2Inner env i js1 arr es ctr = (arr, es, ctr) := by
    apply phase2Inner_skip
    intro j hjs nd' tn' hi' hj'
    have h2 : some nd' = some nd := by rw [← hi', hi]
    injection h2 with h2
    subst h2
    rw [hlbl]
    intro hcon
    injection hcon with hcon
    exact hpre j hjs tn' hj' hcon.symm
  have hstep0 : phase2Inner env i (js1 ++ j₀ :: js2) arr es ctr =
      phase2Inner env i (j₀ :: js2) arr es ctr := by
    rw [phase2Inner_append, hskip1]
  rw [hstep0]
  have h1i : (arr.set i (ptrUpdate tn lbl nd)).get? i =
      some (ptrUpdate tn lbl nd) := get?_set_self arr i _ nd hi
  by_cases hji : j₀ = i
  · subst hji
    have htn : tn = nd := by
      have h2 : some tn = some nd := by rw [← hj, hi]
      injection h2
    have hid' : nd.id = lbl := by
      rw [← htn]
      exact hid
    have h1i' : (arr.set j₀ (ptrUpdate nd lbl nd)).get? j₀ =
        some (ptrUpdate nd lbl nd) := get?_set_self arr j₀ _ nd hi
    have hprem : ∀ j ∈ js2, ∀ nd' tn' : NodeData,
        ((arr.set j₀ (ptrUpdate nd lbl nd)).set j₀
          (tgtUpdate (ptrUpdate nd lbl nd))).get? j₀ = some nd' →
        ((arr.set j₀ (ptrUpdate nd lbl nd)).set j₀
          (tgtUpdate (ptrUpdate nd lbl nd))).get? j = some tn' →
        nd'.data.extraInfo.pointingToLabel ≠ some tn'.id := by
      intro j hjs nd' tn' hi' hj' hcon
      have h2i : ((arr.set j₀ (ptrUpdate nd lbl nd)).set j₀
          (tgtUpdate (ptrUpdate nd lbl nd))).get? j₀ =
          some (tgtUpdate (ptrUpdate nd lbl nd)) :=
        get?_set_self _ j₀ _ (ptrUpdate nd lbl nd) h1i'
      have hnd' : nd' = tgtUpdate (ptrUpdate nd lbl nd) := by
        have h3 : some nd' = some (tgtUpdate (ptrUpdate nd lbl nd)) := by
          rw [← hi', h2i]
        injection h3
      subst hnd'
      have hcon2 : nd.data.extraInfo.pointingToLabel = some tn'.id := hcon
      rw [hlbl] at hcon2
      injection hcon2 with hcon2
      rcases get?_set_trace h1i'
        (rfl : (tgtUpdate (ptrUpdate nd lbl nd)).id =
          (ptrUpdate nd lbl nd).id) j tn' hj' with ⟨m₁, hm₁, hid₁⟩
      rcases get?_set_trace hi
        (rfl : (ptrUpdate nd lbl nd).id = nd.id) j m₁ hm₁ with
        ⟨m₀, hm₀, hid₀⟩
      exact hpost j hjs m₀ hm₀ (by rw [← hid₀, ← hid₁, ← hcon2])
    have heqA : phase2Inner env j₀ (j₀ :: js2) arr es ctr =
        ((arr.set j₀ (ptrUpdate nd lbl nd)).set j₀
            (tgtUpdate (ptrUpdate nd lbl nd)),
          es ++ [createEdge ("e" ++ nd.id ++ "-" ++ nd.id) "step" nd.id
            nd.id (env.cg ctr)], ctr + 1) := by
      rw [phase2Inner]
      simp only [hi, hlbl]
      rw [if_pos hid']
      simp only [h1i']
      exact phase2Inner_skip env j₀ js2 _ _ _ hprem
    refine ⟨(arr.set j₀ (ptrUpdate nd lbl nd)).set j₀
        (tgtUpdate (ptrUpdate nd lbl nd)), ?_, ?_, ?_⟩
    · rw [heqA, hid']
    · refine ⟨tgtUpdate (ptrUpdate nd lbl nd),
        get?_set_self _ j₀ _ (ptrUpdate nd lbl nd) h1i', rfl, ?_⟩
      rw [htn]
      rfl
    · exact ⟨tgtUpdate (ptrUpdate nd lbl nd),
        get?_set_self _ j₀ _ (ptrUpdate nd lbl nd) h1i', rfl, rfl⟩
  · have h1j : (arr.set i (ptrUpdate tn lbl nd)).get? j₀ = some tn := by
      rw [get?_set_ne arr i j₀ _ (fun he => hji he.symm)]
      exact hj
    have hprem : ∀ j ∈ js2, ∀ nd' tn' : NodeData,
        ((arr.set i (ptrUpdate tn lbl nd)).set j₀
          (tgtUpdate tn)).get? i = some nd' →
        ((arr.set i (ptrUpdate tn lbl nd)).set j₀
          (tgtUpdate tn)).get? j = some tn' →
        nd'.data.extraInfo.pointingToLabel ≠ some tn'.id := by
      intro j hjs nd' tn' hi' hj' hcon
      have h2i : ((arr.set i (ptrUpdate tn lbl nd)).set j₀
          (tgtUpdate tn)).get? i = some (ptrUpdate tn lbl nd) := by
        rw [get?_set_ne _ j₀ i _ hji]
        exact h1i
      have hnd' : nd' = ptrUpdate tn lbl nd := by
        have h3 : some nd' = some (ptrUpdate tn lbl nd) := by
          rw [← hi', h2i]
        injection h3
      subst hnd'
      have hcon2 : nd.data.extraInfo.pointingToLabel = some tn'.id := hcon
      rw [hlbl] at hcon2
      injection hcon2 with hcon2
      rcases get?_set_trace h1j
        (rfl : (tgtUpdate tn).id = tn.id) j tn' hj' with ⟨m₁, hm₁, hid₁⟩
      rcases get?_set_trace hi
        (rfl : (ptrUpdate tn lbl nd).id = nd.id) j m₁ hm₁ with
        ⟨m₀, hm₀, hid₀⟩
      exact hpost j hjs m₀ hm₀ (by rw [← hid₀, ← hid₁, ← hcon2])
    have heqB : phase2Inner env i (j₀ :: js2) arr es ctr =
        ((arr.set i (ptrUpdate tn lbl nd)).set j₀ (tgtUpdate tn),
          es ++ [createEdge ("e" ++ nd.id ++ "-" ++ tn.id) "step" nd.id
            tn.id (env.cg ctr)], ctr + 1) := by
      rw [phase2Inner]
      simp only [hi, hj, hlbl]
      rw [if_pos hid]
      simp only [h1j]
      exact phase2Inner_skip env i js2 _ _ _ hprem
    refine ⟨(arr.set i (ptrUpdate tn lbl nd)).set j₀ (tgtUpdate tn),
      ?_, ?_, ?_⟩
    · rw [heqB, hid]
    · refine ⟨ptrUpdate tn lbl nd, ?_, rfl, rfl⟩
      rw [get?_set_ne _ j₀ i _ hji]
      exact h1i
    · exact ⟨tgtUpdate tn, get?_set_self _ j₀ _ tn h1j, rfl, rfl⟩


/-- **C2** (address synthesis): in the stack layer the first node's address
is the fixed high stack base `0xbfffffff`, each next node's address is the
previous node's address plus the previous node's size, and every address is
`0x` followed by uppercase hexadecimal digits; the same holds for the heap
layer from the fixed low heap base `0x00400000`, where every block —
whatever its state — produces a node and advances the cursor by its size. -/
theorem c2_address_synthesis (env : VizEnv) (stack : List StackSymbol)
    (heap : List HeapBlock) (sns0 : List NodeData) (sctr hctr : Nat) :
    (∀ n, (useStackNodesCompute env stack sctr).1.get? 0 = some n →
      n.data.extraInfo.address = addrStr 0xbfffffff) ∧
    (∀ j n n', (useStackNodesCompute env stack sctr).1.get? j = some n →
      (useStackNodesCompute env stack sctr).1.get? (j + 1) = some n' →
      ∃ a : Nat, n.data.extraInfo.address = addrStr a ∧
        n'.data.extraInfo.address = addrStr (a + n.size)) ∧
    (∀ j n, (useStackNodesCompute env stack sctr).1.get? j = some n →
      hexAddrFormat n.data.extraInfo.address = true) ∧
    (∀ n, (useHeapNodesCompute env heap sns0 hctr).1.get? 0 = some n →
      n.data.extraInfo.address = addrStr 0x00400000) ∧
    (∀ j n n', (useHeapNodesCompute env heap sns0 hctr).1.get? j = some n →
      (useHeapNodesCompute env heap sns0 hctr).1.get? (j + 1) = some n' →
      ∃ a : Nat, n.data.extraInfo.address = addrStr a ∧
        n'.data.extraInfo.address = addrStr (a + n.size)) ∧
    (∀ j n, (useHeapNodesCompute env heap sns0 hctr).1.get? j = some n →
      hexAddrFormat n.data.extraInfo.address = true) := by
  have hs := useStackNodesCompute_chain env stack sctr
  have hh := useHeapNodesCompute_chain env heap sns0 hctr
  refine ⟨fun n h0 => chain_first hs h0,
    fun j n n' hj hj' => chain_consecutive hs hj hj',
    fun j n hj => ?_,
    fun n h0 => chain_first hh h0,
    fun j n n' hj hj' => chain_consecutive hh hj hj',
    fun j n hj => ?_⟩
  · rw [hs j n hj]; exact hexAddrFormat_addrStr _
  · rw [hh j n hj]; exact hexAddrFormat_addrStr _

/-- Witness for C2 at the spec's example inputs: the first stack node of
`stackW` sits at the stack base `0xBFFFFFFF`, the first heap node of
`heapA` at the heap base `0x400000`, both in `0x`-uppercase-hex format. -/
theorem c2_address_synthesis_witness :
    ((useStackNodesCompute envW stackW 0).1.get? 0).map
        (fun n => n.data.extraInfo.address) = some "0xBFFFFFFF" ∧
    ((useHeapNodesCompute envW heapA [] 0).1.get? 0).map
        (fun n => n.data.extraInfo.address) = some "0x400000" ∧
    ((useStackNodesCompute envW stackW 0).1.get? 0).map
        (fun n => hexAddrFormat n.data.extraInfo.address) = some true := by
  refine ⟨?_, ?_, ?_⟩
  · rcases hE : (useStackNodesCompute envW stackW 0).1.get? 0 with _ | n
    · exact absurd hE (by decide)
    · have h := (c2_address_synthesis envW stackW heapA [] 0 0).1 n hE
      show some (n.data.extraInfo.address) = some "0xBFFFFFFF"
      rw [h]
      decide
  · rcases hE : (useHeapNodesCompute envW heapA [] 0).1.get? 0 with _ | n
    · exact absurd hE (by decide)
    · have h := (c2_address_synthesis envW stackW heapA [] 0 0).2.2.2.1 n hE
      show some (n.data.extraInfo.address) = some "0x400000"
      rw [h]
      decide
  · rcases hE : (useStackNodesCompute envW stackW 0).1.get? 0 with _ | n
    · exact absurd hE (by decide)
    · have h := (c2_address_synthesis envW stackW heapA [] 0 0).2.2.1 0 n hE
      show some (hexAddrFormat n.data.extraInfo.address) = some true
      rw [h]


/-- **C3** (dangling coloring): every stack-to-heap edge created for a
(stack node, heap block) pair whose stack id appears in the block's
`danglingPointerIds` is rendered with the fixed warning color `red` — even
when the `currentPointerId` relation (and its color-reuse rule) also holds
for the same pair in the same pass, since no assumption excludes it — and
the stack node's metadata is set to `"Dangling Pointer"`. -/
theorem c3_dangling_coloring (env : VizEnv) (heap : List HeapBlock)
    (sns : List NodeData) (ctr : Nat) :
    (∀ e ∈ (useHeapNodesCompute env heap sns ctr).2.2.1, ∀ i blk,
      heap.get? i = some blk →
      e.target = generateNodeId i (decide (blk.blockState = "Unallocated"))
        (decide (blk.blockState = "Free")) →
      isDanglingPtr blk e.source = true →
      e.style.stroke = "red" ∧ e.markerEnd.color = "red") ∧
    (∀ k sn, sns.get? k = some sn →
      (∃ i blk, heap.get? i = some blk ∧ blk.blockState ≠ "Unallocated" ∧
        isDanglingPtr blk sn.id = true) →
      ∃ sn', (useHeapNodesCompute env heap sns ctr).2.1.get? k = some sn' ∧
        sn'.data.extraInfo.metadata = some "Dangling Pointer") := by
  constructor
  · intro e he i blk hblk htgt hdang
    obtain ⟨L, hL, hmap, hprops⟩ :=
      heapBuildLoop_conns env heap [] sns [] ctr 0 0x00400000
    rw [useHeapNodesCompute] at he
    rw [hL] at he
    rw [List.nil_append] at he
    obtain ⟨_, _, j, blk', hblk', _, htgt', _, hred⟩ := hprops e he
    have hij : j = i := by
      have h2 : generateNodeId (0 + j)
          (decide (blk'.blockState = "Unallocated"))
          (decide (blk'.blockState = "Free")) =
          generateNodeId i (decide (blk.blockState = "Unallocated"))
            (decide (blk.blockState = "Free")) := by
        rw [← htgt', ← htgt]
      have := generateNodeId_inj h2
      omega
    subst hij
    have hbb : blk' = blk := by
      rw [hblk] at hblk'
      injection hblk' with h2
      exact h2.symm
    subst hbb
    exact hred hdang
  · intro k sn hk hex
    exact heapBuildLoop_metadata env heap [] sns [] ctr 0 0x00400000 k sn hk
      (Or.inr hex)

/-- Witness for C3: block `blkD` is simultaneously current and dangling
for the single pointer `p`; the one created edge is `red` and `p`'s
metadata reads `Dangling Pointer`. -/
theorem c3_dangling_coloring_witness :
    ((useHeapNodesCompute envW heapD snsP 0).2.2.1.get? 0).map
        (fun e => (e.style.stroke, e.markerEnd.color)) = some ("red", "red") ∧
    ((useHeapNodesCompute envW heapD snsP 0).2.1.get? 0).map
        (fun sn => sn.data.extraInfo.metadata) =
      some (some "Dangling Pointer") := by
  constructor
  · rcases hE : (useHeapNodesCompute envW heapD snsP 0).2.2.1.get? 0 with _ | e
    · exact absurd hE (by decide)
    · have hmem : e ∈ (useHeapNodesCompute envW heapD snsP 0).2.2.1 :=
        List.get?_mem hE
      have htgt0 : ((useHeapNodesCompute envW heapD snsP 0).2.2.1.get? 0).map
          (fun x => x.target) = some "free-0" := by decide
      rw [hE] at htgt0
      have htgt : e.target = "free-0" := by
        have h2 : some e.target = some "free-0" := htgt0
        injection h2
      have hsrc0 : ((useHeapNodesCompute envW heapD snsP 0).2.2.1.get? 0).map
          (fun x => x.source) = some "p" := by decide
      rw [hE] at hsrc0
      have hsrc : e.source = "p" := by
        have h2 : some e.source = some "p" := hsrc0
        injection h2
      have h := (c3_dangling_coloring envW heapD snsP 0).1 e hmem 0 blkD
        (by decide)
        (htgt.trans (by decide))
        (by rw [hsrc]; decide)
      show some (e.style.stroke, e.markerEnd.color) = some ("red", "red")
      rw [h.1, h.2]
  · rcases hK : snsP.get? 0 with _ | sn
    · exact absurd hK (by decide)
    · have hid : sn.id = "p" := by
        have h0 : (snsP.get? 0).map (fun x => x.id) = some "p" := by decide
        rw [hK] at h0
        have h2 : some sn.id = some "p" := h0
        injection h2
      obtain ⟨sn', hget, hmd⟩ := (c3_dangling_coloring envW heapD snsP 0).2 0 sn
        hK ⟨0, blkD, by decide, by decide, by rw [hid]; decide⟩
      rw [hget]
      show some sn'.data.extraInfo.metadata = some (some "Dangling Pointer")
      rw [hmd]


theorem blocksPairs_mem :
    ∀ (blocks : List HeapBlock) (sids : List String) (idx i : Nat)
      (blk : HeapBlock) (sid : String),
      blocks.get? i = some blk → blk.blockState ≠ "Unallocated" →
      sid ∈ sids → relatesBlock blk sid = true →
      (sid, generateNodeId (idx + i)
        (decide (blk.blockState = "Unallocated"))
        (decide (blk.blockState = "Free"))) ∈ blocksPairs blocks sids idx := by
  intro blocks
  induction blocks with
  | nil => intro sids idx i blk sid h; simp at h
  | cons blk0 rest ih =>
    intro sids idx i blk sid hblk hstate hmem hrel
    rw [blocksPairs]
    cases i with
    | zero =>
      have h2 : blk = blk0 := by
        have h3 : some blk0 = some blk := hblk
        injection h3 with h3
        exact h3.symm
      subst h2
      have hg : ¬strIncludes
          (generateNodeId idx (decide (blk.blockState = "Unallocated"))
            (decide (blk.blockState = "Free"))) "unallocated" = true := by
        rw [guard_eq_unalloc]
        simpa using hstate
      rw [if_neg hg]
      apply List.mem_append_left
      rw [Nat.add_zero]
      exact List.mem_map_of_mem _ (List.mem_filter.2 ⟨hmem, hrel⟩)
    | succ i' =>
      apply List.mem_append_right
      have := ih sids (idx + 1) i' blk sid hblk hstate hmem hrel
      rw [show idx + (i' + 1) = idx + 1 + i' from by omega]
      exact this

/-- **C6** (amended): for every heap block the produced node's id follows
the index-plus-state scheme (`index` as plain string for allocated/leaked,
`free-<index>` / `unallocated-<index>` otherwise); for every stack node
matching a non-unallocated block's `currentPointerId` an active edge with
the deterministic id is created; and the stack node's extraInfo records the
heap address of its relating block when exactly one block relates to it as
current or dangling (with several relating blocks the last one in traversal
order wins, so the per-block address claim holds only for the unique
relating block). -/
theorem c6_heap_ids_active_edges (env : VizEnv) (heap : List HeapBlock)
    (sns : List NodeData) (ctr : Nat) :
    ((useHeapNodesCompute env heap sns ctr).1.length = heap.length) ∧
    (∀ k blk node, heap.get? k = some blk →
      (useHeapNodesCompute env heap sns ctr).1.get? k = some node →
      node.id =
        (if blk.blockState = "Unallocated" then "unallocated-" ++ natToDec k
          else if blk.blockState = "Free" then "free-" ++ natToDec k
          else natToDec k)) ∧
    (∀ i blk sn, heap.get? i = some blk → blk.blockState ≠ "Unallocated" →
      sn ∈ sns → isCurrentPtr blk sn.id = true →
      ∃ e ∈ (useHeapNodesCompute env heap sns ctr).2.2.1,
        e.source = sn.id ∧
        e.target = generateNodeId i (decide (blk.blockState = "Unallocated"))
          (decide (blk.blockState = "Free")) ∧
        e.id = "e" ++ sn.id ++ "-" ++ e.target ∧ e.type = "straight") ∧
    (∀ k sn i blk, sns.get? k = some sn → heap.get? i = some blk →
      blk.blockState ≠ "Unallocated" → relatesBlock blk sn.id = true →
      (∀ j blk', heap.get? j = some blk' → j ≠ i →
        blk'.blockState ≠ "Unallocated" → relatesBlock blk' sn.id = false) →
      ∃ sn', (useHeapNodesCompute env heap sns ctr).2.1.get? k = some sn' ∧
        sn'.data.extraInfo.pointingToAddress =
          some (addrStr (0x00400000 +
            ((heap.take i).map (fun b => b.size)).sum))) := by
  refine ⟨?_, ?_, ?_, ?_⟩
  · rw [useHeapNodesCompute, heapBuildLoop_length]
    simp
  · intro k blk node hblk hnode
    obtain ⟨node', hget', hid'⟩ := heapBuildLoop_node_id env heap [] sns [] ctr
      0 0x00400000 k blk hblk
    rw [useHeapNodesCompute] at hnode
    rw [List.length_nil, Nat.zero_add] at hget'
    rw [hnode] at hget'
    have hnn : node = node' := by injection hget'
    subst hnn
    rw [hid']
    by_cases h1 : blk.blockState = "Unallocated"
    · simp [generateNodeId, h1]
    · by_cases h2 : blk.blockState = "Free" <;>
        simp [generateNodeId, h1, h2]
  · intro i blk sn hblk hstate hmem hcur
    obtain ⟨L, hL, hmap, hprops⟩ :=
      heapBuildLoop_conns env heap [] sns [] ctr 0 0x00400000
    have hrel : relatesBlock blk sn.id = true := by
      rw [relatesBlock, hcur]
      rfl
    have hpair := blocksPairs_mem heap (sns.map (fun n => n.id)) 0 i blk sn.id
      hblk hstate (List.mem_map_of_mem _ hmem) hrel
    rw [Nat.zero_add] at hpair
    rw [← hmap] at hpair
    obtain ⟨e, heL, hpe⟩ := List.mem_map.1 hpair
    have hsrc : e.source = sn.id := congrArg Prod.fst hpe
    have htgt : e.target = generateNodeId i
        (decide (blk.blockState = "Unallocated"))
        (decide (blk.blockState = "Free")) := congrArg Prod.snd hpe
    obtain ⟨hid', htype, _⟩ := hprops e heL
    refine ⟨e, ?_, hsrc, htgt, ?_, htype⟩
    · rw [useHeapNodesCompute, hL, List.nil_append]
      exact heL
    · rw [hid', hsrc]
  · intro k sn i blk hk hblk hstate hrel huniq
    exact heapBuildLoop_ptA env heap [] sns [] ctr 0 0x00400000 k sn i blk hk
      hblk hstate hrel huniq

/-- Counterexample to C6 as stated: with `heapTwo` (an allocated block
current for `p` followed by a freed block dangling `p`), block 0's heap
node has address `0x400000`, yet the stack node `p` finally records
`0x400004` — the address of the *last* relating block, not of the block
whose `currentPointerId` it matches. -/
theorem c6_counterexample :
    heapTwo.get? 0 = some blkA ∧
    isCurrentPtr blkA "p" = true ∧
    blkA.blockState ≠ "Unallocated" ∧
    ((useHeapNodesCompute envW heapTwo snsP 0).1.get? 0).map
      (fun n => n.data.extraInfo.address) = some "0x400000" ∧
    ((useHeapNodesCompute envW heapTwo snsP 0).2.1.map
      (fun sn => (sn.id, sn.data.extraInfo.pointingToAddress))) =
      [("p", some "0x400004")] ∧
    some "0x400004" ≠ some "0x400000" := by
  refine ⟨by decide, by decide, by decide, by decide, by decide, by decide⟩

/-- Witness for the amended C6 at the spec's example scenario
(`stackP` / `heapA`): one heap node with id `"0"`, an active edge
`ep-0`, and `p` records the heap node's address `0x400000`. -/
theorem c6_heap_ids_active_edges_witness :
    (useHeapNodesCompute envW heapA snsP 0).1.length = 1 ∧
    ((useHeapNodesCompute envW heapA snsP 0).1.get? 0).map (fun n => n.id) =
      some "0" ∧
    ("p", "0") ∈ (useHeapNodesCompute envW heapA snsP 0).2.2.1.map
      (fun e => (e.source, e.target)) ∧
    ((useHeapNodesCompute envW heapA snsP 0).2.1.get? 0).map
      (fun sn => sn.data.extraInfo.pointingToAddress) =
      some (some "0x400000") := by
  refine ⟨?_, ?_, ?_, ?_⟩
  · exact ((c6_heap_ids_active_edges envW heapA snsP 0).1).trans (by decide)
  · rcases hE : (useHeapNodesCompute envW heapA snsP 0).1.get? 0 with _ | node
    · exact absurd hE (by decide)
    · have hid := (c6_heap_ids_active_edges envW heapA snsP 0).2.1 0 blkA node
        (by decide) hE
      show some node.id = some "0"
      rw [hid]
      decide
  · rcases hK : snsP.get? 0 with _ | sn
    · exact absurd hK (by decide)
    have hmem : sn ∈ snsP := List.get?_mem hK
    have hid : sn.id = "p" := by
      have h0 : (snsP.get? 0).map (fun x => x.id) = some "p" := by decide
      rw [hK] at h0
      have h2 : some sn.id = some "p" := h0
      injection h2
    obtain ⟨e, heC, hsrc, htgt, _, _⟩ :=
      (c6_heap_ids_active_edges envW heapA snsP 0).2.2.1 0 blkA sn
        (by decide) (by decide) hmem (by rw [isCurrentPtr, hid]; decide)
    have : (e.source, e.target) = ("p", "0") := by
      rw [hsrc, htgt, hid]
      decide
    rw [← this]
    exact List.mem_map_of_mem _ heC
  · rcases hK : snsP.get? 0 with _ | sn
    · exact absurd hK (by decide)
    have hid : sn.id = "p" := by
      have h0 : (snsP.get? 0).map (fun x => x.id) = some "p" := by decide
      rw [hK] at h0
      have h2 : some sn.id = some "p" := h0
      injection h2
    obtain ⟨sn', hget, hptA⟩ :=
      (c6_heap_ids_active_edges envW heapA snsP 0).2.2.2 0 sn 0 blkA
        hK (by decide) (by decide)
        (by rw [relatesBlock, isCurrentPtr, hid]; decide)
        (fun j blk' hj hne hst => by
          cases j with
          | zero => exact absurd rfl hne
          | succ j => simp [heapA] at hj)
    rw [hget]
    show some sn'.data.extraInfo.pointingToAddress = some (some "0x400000")
    rw [hptA]
    decide


theorem length_filter_map_eq {α β : Type} (f : α → β) (p : β → Bool)
    (l : List α) :
    (l.filter (fun a => p (f a))).length = ((l.map f).filter p).length := by
  induction l with
  | nil => rfl
  | cons a t ih =>
    by_cases h : p (f a) = true <;> simp [List.filter_cons, h, ih]

theorem filter_len_zero {α : Type} (l : List α) (p : α → Bool)
    (h : ∀ a ∈ l, p a = false) : (l.filter p).length = 0 := by
  induction l with
  | nil => rfl
  | cons a t ih =>
    rw [List.filter_cons, if_neg (by simp [h a (by simp)])]
    exact ih fun a ha => h a (by simp [ha])

theorem blocksPairs_targets :
    ∀ (blocks : List HeapBlock) (sids : List String) (idx : Nat)
      (q : String × String), q ∈ blocksPairs blocks sids idx →
      ∃ j blk, blocks.get? j = some blk ∧
        q.2 = generateNodeId (idx + j)
          (decide (blk.blockState = "Unallocated"))
          (decide (blk.blockState = "Free")) := by
  intro blocks
  induction blocks with
  | nil => intro sids idx q h; simp [blocksPairs] at h
  | cons blk0 rest ih =>
    intro sids idx q hq
    rw [blocksPairs] at hq
    rcases List.mem_append.1 hq with h0 | h1
    · by_cases hg : strIncludes
          (generateNodeId idx (decide (blk0.blockState = "Unallocated"))
            (decide (blk0.blockState = "Free"))) "unallocated" = true
      · rw [if_pos hg] at h0
        simp at h0
      · rw [if_neg hg] at h0
        obtain ⟨sid, _, hpair⟩ := List.mem_map.1 h0
        refine ⟨0, blk0, rfl, ?_⟩
        rw [← hpair, Nat.add_zero]
    · obtain ⟨j, blk, hblk, htgt⟩ := ih sids (idx + 1) q h1
      refine ⟨j + 1, blk, hblk, ?_⟩
      rw [htgt, show idx + 1 + j = idx + (j + 1) from by omega]

theorem pair_filter_len (xs : List String) (hid sid : String) :
    ((xs.map (fun s => (s, hid))).filter
        (fun q => q = (sid, hid))).length =
      (xs.filter (fun s => s = sid)).length := by
  rw [← length_filter_map_eq]
  congr 1
  apply List.filter_congr
  intro s _
  simp [Prod.ext_iff]

theorem filter_eq_count_one (xs : List String) (sid : String)
    (hnodup : xs.Nodup) (hmem : sid ∈ xs) :
    (xs.filter (fun s => s = sid)).length = 1 := by
  rw [← List.countP_eq_length_filter]
  have h := List.count_eq_one_of_mem hnodup hmem
  rw [List.count] at h
  rw [← h]
  apply List.countP_congr
  intro s _
  constructor
  · intro hs
    simp at hs
    simp [hs]
  · intro hs
    simp at hs
    simp [hs]

theorem blocksPairs_count :
    ∀ (blocks : List HeapBlock) (sids : List String) (idx i : Nat)
      (blk : HeapBlock) (sid : String),
      sids.Nodup → blocks.get? i = some blk →
      blk.blockState ≠ "Unallocated" → sid ∈ sids →
      relatesBlock blk sid = true →
      ((blocksPairs blocks sids idx).filter
        (fun q => q = (sid, generateNodeId (idx + i)
          (decide (blk.blockState = "Unallocated"))
          (decide (blk.blockState = "Free"))))).length = 1 := by
  intro blocks
  induction blocks with
  | nil => intro sids idx i blk sid _ h; simp at h
  | cons blk0 rest ih =>
    intro sids idx i blk sid hnodup hblk hstate hmem hrel
    rw [blocksPairs, List.filter_append, List.length_append]
    cases i with
    | zero =>
      have h2 : blk = blk0 := by
        have h3 : some blk0 = some blk := hblk
        injection h3 with h3
        exact h3.symm
      subst h2
      have hg : ¬strIncludes
          (generateNodeId idx (decide (blk.blockState = "Unallocated"))
            (decide (blk.blockState = "Free"))) "unallocated" = true := by
        rw [guard_eq_unalloc]
        simpa using hstate
      rw [if_neg hg]
      have hrest : ((blocksPairs rest sids (idx + 1)).filter
          (fun q => q = (sid, generateNodeId (idx + 0)
            (decide (blk.blockState = "Unallocated"))
            (decide (blk.blockState = "Free"))))).length = 0 := by
        apply filter_len_zero
        intro q hq
        obtain ⟨j, blk', hblk', htgt⟩ := blocksPairs_targets rest sids (idx + 1)
          q hq
        simp only [decide_eq_false_iff_not]
        intro hqe
        have : generateNodeId (idx + 1 + j)
            (decide (blk'.blockState = "Unallocated"))
            (decide (blk'.blockState = "Free")) =
            generateNodeId (idx + 0)
              (decide (blk.blockState = "Unallocated"))
              (decide (blk.blockState = "Free")) := by
          rw [← htgt, hqe]
        have := generateNodeId_inj this
        omega
      rw [hrest, Nat.add_zero]
      rw [show idx + 0 = idx from by omega]
      rw [pair_filter_len]
      apply filter_eq_count_one _ _ (hnodup.filter _)
      exact List.mem_filter.2 ⟨hmem, hrel⟩
    | succ i' =>
      have hblk' : rest.get? i' = some blk := hblk
      have hchunk : ∀ (c : List (String × String)),
          (∀ q ∈ c, q.2 = generateNodeId idx
            (decide (blk0.blockState = "Unallocated"))
            (decide (blk0.blockState = "Free"))) →
          (c.filter (fun q => q = (sid, generateNodeId (idx + (i' + 1))
            (decide (blk.blockState = "Unallocated"))
            (decide (blk.blockState = "Free"))))).length = 0 := by
        intro c hc
        apply filter_len_zero
        intro q hq
        simp only [decide_eq_false_iff_not]
        intro hqe
        have h4 : generateNodeId idx
            (decide (blk0.blockState = "Unallocated"))
            (decide (blk0.blockState = "Free")) =
            generateNodeId (idx + (i' + 1))
              (decide (blk.blockState = "Unallocated"))
              (decide (blk.blockState = "Free")) := by
          rw [← hc q hq, hqe]
        have := generateNodeId_inj h4
        omega
      have hzero : ((if strIncludes
          (generateNodeId idx (decide (blk0.blockState = "Unallocated"))
            (decide (blk0.blockState = "Free"))) "unallocated" then []
          else (sids.filter (fun sid => relatesBlock blk0 sid)).map
            (fun sid => (sid, generateNodeId idx
              (decide (blk0.blockState = "Unallocated"))
              (decide (blk0.blockState = "Free"))))).filter
          (fun q => q = (sid, generateNodeId (idx + (i' + 1))
            (decide (blk.blockState = "Unallocated"))
            (decide (blk.blockState = "Free"))))).length = 0 := by
        apply hchunk
        intro q hq
        split at hq
        · simp at hq
        · obtain ⟨s, _, hpair⟩ := List.mem_map.1 hq
          rw [← hpair]
      rw [hzero, Nat.zero_add]
      have := ih sids (idx + 1) i' blk sid hnodup hblk' hstate hmem hrel
      rw [show idx + 1 + i' = idx + (i' + 1) from by omega] at this
      exact this

/-- **C10** (implicit claim): when a stack node's id is simultaneously the
`currentPointerId` of a non-unallocated block and a member of the same
block's `danglingPointerIds`, exactly one edge is created for the pair
(not two), it carries the fixed warning color `red`, and the stack node's
metadata is set to `"Dangling Pointer"`. -/
theorem c10_same_pair_single_edge (env : VizEnv) (heap : List HeapBlock)
    (sns : List NodeData) (ctr : Nat)
    (hnodup : (sns.map (fun n => n.id)).Nodup)
    (k : Nat) (sn : NodeData) (i : Nat) (blk : HeapBlock)
    (hk : sns.get? k = some sn)
    (hblk : heap.get? i = some blk) (hstate : blk.blockState ≠ "Unallocated")
    (hcur : isCurrentPtr blk sn.id = true)
    (hdang : isDanglingPtr blk sn.id = true) :
    ((useHeapNodesCompute env heap sns ctr).2.2.1.filter
      (fun e => e.source = sn.id ∧ e.target = generateNodeId i
        (decide (blk.blockState = "Unallocated"))
        (decide (blk.blockState = "Free")))).length = 1 ∧
    (∀ e ∈ (useHeapNodesCompute env heap sns ctr).2.2.1,
      e.source = sn.id →
      e.target = generateNodeId i (decide (blk.blockState = "Unallocated"))
        (decide (blk.blockState = "Free")) →
      e.style.stroke = "red" ∧ e.markerEnd.color = "red" ∧
        e.id = "e" ++ sn.id ++ "-" ++ e.target) ∧
    (∃ sn', (useHeapNodesCompute env heap sns ctr).2.1.get? k = some sn' ∧
      sn'.data.extraInfo.metadata = some "Dangling Pointer") := by
  obtain ⟨L, hL, hmap, hprops⟩ :=
    heapBuildLoop_conns env heap [] sns [] ctr 0 0x00400000
  have hconns : (useHeapNodesCompute env heap sns ctr).2.2.1 = L := by
    rw [useHeapNodesCompute, hL, List.nil_append]
  refine ⟨?_, ?_, ?_⟩
  · rw [hconns]
    have hstep1 : (L.filter (fun e => e.source = sn.id ∧
        e.target = generateNodeId i
          (decide (blk.blockState = "Unallocated"))
          (decide (blk.blockState = "Free")))).length =
        (L.filter (fun e => (e.source, e.target) = (sn.id, generateNodeId i
          (decide (blk.blockState = "Unallocated"))
          (decide (blk.blockState = "Free"))))).length := by
      congr 1
      apply List.filter_congr
      intro e _
      simp [Prod.ext_iff]
    have h3 := length_filter_map_eq (fun e : EdgeData => (e.source, e.target))
      (fun q => decide (q = (sn.id, generateNodeId i
        (decide (blk.blockState = "Unallocated"))
        (decide (blk.blockState = "Free"))))) L
    have h4 := blocksPairs_count heap (sns.map (fun n => n.id)) 0 i blk sn.id
      hnodup hblk hstate (List.mem_map_of_mem _ (List.get?_mem hk))
      (by rw [relatesBlock, hcur]; rfl)
    rw [Nat.zero_add] at h4
    exact hstep1.trans (h3.trans (by rw [hmap]; exact h4))
  · intro e he hsrc htgt
    rw [hconns] at he
    obtain ⟨hid', _, j, blk', hblk', _, htgt', _, hred⟩ := hprops e he
    have hij : j = i := by
      have h2 : generateNodeId (0 + j)
          (decide (blk'.blockState = "Unallocated"))
          (decide (blk'.blockState = "Free")) =
          generateNodeId i (decide (blk.blockState = "Unallocated"))
            (decide (blk.blockState = "Free")) := by
        rw [← htgt', ← htgt]
      have := generateNodeId_inj h2
      omega
    subst hij
    have hbb : blk' = blk := by
      rw [hblk] at hblk'
      injection hblk' with h2
      exact h2.symm
    subst hbb
    have hredE := hred (by rw [hsrc]; exact hdang)
    refine ⟨hredE.1, hredE.2, ?_⟩
    rw [hid', hsrc]
  · exact heapBuildLoop_metadata env heap [] sns [] ctr 0 0x00400000 k sn hk
      (Or.inr ⟨i, blk, hblk, hstate, hdang⟩)

/-- Witness for C10 at the concrete same-pair scenario `heapD` (block 0 is
current *and* dangling for `p`): exactly one `p → free-0` edge, red, and
`p`'s metadata set. -/
theorem c10_same_pair_single_edge_witness :
    ((useHeapNodesCompute envW heapD snsP 0).2.2.1.filter
      (fun e => e.source = "p" ∧ e.target = "free-0")).length = 1 ∧
    ((useHeapNodesCompute envW heapD snsP 0).2.1.get? 0).map
      (fun sn => sn.data.extraInfo.metadata) = some (some "Dangling Pointer") := by
  rcases hK : snsP.get? 0 with _ | sn
  · exact absurd hK (by decide)
  have hid : sn.id = "p" := by
    have h0 : (snsP.get? 0).map (fun x => x.id) = some "p" := by decide
    rw [hK] at h0
    have h2 : some sn.id = some "p" := h0
    injection h2
  have h := c10_same_pair_single_edge envW heapD snsP 0 (by decide) 0 sn 0 blkD
    hK (by decide) (by decide) (by rw [isCurrentPtr, hid]; decide)
    (by rw [isDanglingPtr, hid]; decide)
  constructor
  · have h1 := h.1
    rw [hid] at h1
    rw [show generateNodeId 0 (decide (blkD.blockState = "Unallocated"))
        (decide (blkD.blockState = "Free")) = "free-0" from by decide] at h1
    exact h1
  · obtain ⟨sn', hget, hmd⟩ := h.2.2
    rw [hget]
    show some sn'.data.extraInfo.metadata = some (some "Dangling Pointer")
    rw [hmd]


/-- The predicate excluding a node from `calculateMemoryUsage`. -/
def usageExcluded (n : NodeData) : Bool :=
  strIncludes n.id "free" || strIncludes n.id "unallocated"

theorem calculateMemoryUsage_foldl (ns : List NodeData) :
    ∀ a : Nat, ns.foldl
        (fun acc node => if strIncludes node.id "free" ||
          strIncludes node.id "unallocated" then acc else acc + node.size) a =
      a + sumSizes (ns.filter (fun n => !usageExcluded n)) := by
  induction ns with
  | nil => intro a; simp [sumSizes]
  | cons n rest ih =>
    intro a
    rw [List.foldl_cons, List.filter_cons]
    by_cases h : usageExcluded n = true
    · rw [if_pos (by rw [usageExcluded] at h; exact h)]
      rw [if_neg (by simp [h])]
      exact ih a
    · have h3 : usageExcluded n = false := by
        cases hb : usageExcluded n
        · rfl
        · exact absurd hb h
      have h2 := h3
      rw [usageExcluded, Bool.or_eq_false_iff] at h2
      rw [if_neg (by simp [h2.1, h2.2])]
      rw [if_pos (by rw [h3]; rfl)]
      rw [ih (a + n.size)]
      have : sumSizes (n :: rest.filter (fun n => !usageExcluded n)) =
          n.size + sumSizes (rest.filter (fun n => !usageExcluded n)) := by
        simp [sumSizes]
      rw [this]
      omega

theorem calculateMemoryUsage_eq (ns : List NodeData) :
    calculateMemoryUsage ns =
      sumSizes (ns.filter (fun n => !usageExcluded n)) := by
  rw [calculateMemoryUsage, calculateMemoryUsage_foldl ns 0, Nat.zero_add]

theorem calculateMemoryUsage_append (a b : List NodeData) :
    calculateMemoryUsage (a ++ b) =
      calculateMemoryUsage a + calculateMemoryUsage b := by
  rw [calculateMemoryUsage_eq, calculateMemoryUsage_eq, calculateMemoryUsage_eq,
    List.filter_append, sumSizes_append]

theorem usageExcluded_heapStepNode (env : VizEnv) (blk : HeapBlock)
    (acc sns : List NodeData) (es : List EdgeData) (ctr idx addr : Nat) :
    usageExcluded (heapStepNode env blk acc sns es ctr idx addr) =
      (decide (blk.blockState = "Free") ||
        decide (blk.blockState = "Unallocated")) := by
  rw [usageExcluded, heapStepNode_id, strIncludes_generateNodeId_free,
    strIncludes_generateNodeId_unallocated]
  by_cases h1 : blk.blockState = "Free" <;>
    by_cases h2 : blk.blockState = "Unallocated" <;> simp [h1, h2]

theorem heapStepNode_size (env : VizEnv) (blk : HeapBlock)
    (acc sns : List NodeData) (es : List EdgeData) (ctr idx addr : Nat) :
    (heapStepNode env blk acc sns es ctr idx addr).size = blk.size := by
  rw [heapStepNode]
  split <;> rfl

theorem heapBuildLoop_usage (env : VizEnv) :
    ∀ (blocks : List HeapBlock) (acc sns : List NodeData) (es : List EdgeData)
      (ctr idx addr : Nat),
      calculateMemoryUsage (heapBuildLoop env blocks acc sns es ctr idx addr).1 =
        calculateMemoryUsage acc +
          ((blocks.filter (fun b => !(decide (b.blockState = "Free") ||
            decide (b.blockState = "Unallocated")))).map (fun b => b.size)).sum := by
  intro blocks
  induction blocks with
  | nil => intro acc sns es ctr idx addr; simp [heapBuildLoop]
  | cons blk0 rest ih =>
    intro acc sns es ctr idx addr
    rw [heapBuildLoop_step, ih, calculateMemoryUsage_append, List.filter_cons]
    have hone : calculateMemoryUsage [heapStepNode env blk0 acc sns es ctr idx addr] =
        if (decide (blk0.blockState = "Free") ||
          decide (blk0.blockState = "Unallocated")) = true then 0
        else blk0.size := by
      rw [calculateMemoryUsage_eq, List.filter_singleton]
      by_cases h : (decide (blk0.blockState = "Free") ||
          decide (blk0.blockState = "Unallocated")) = true
      · rw [if_pos h]
        rw [show (!usageExcluded (heapStepNode env blk0 acc sns es ctr idx addr)) = false by
          rw [usageExcluded_heapStepNode, h]; rfl]
        simp [sumSizes]
      · rw [if_neg h]
        rw [show (!usageExcluded (heapStepNode env blk0 acc sns es ctr idx addr)) = true by
          rw [usageExcluded_heapStepNode]
          simp at h
          simp [h]]
        simp [sumSizes, heapStepNode_size]
    rw [hone]
    by_cases h : (decide (blk0.blockState = "Free") ||
        decide (blk0.blockState = "Unallocated")) = true
    · rw [if_pos h, if_neg (by simp [h])]
      omega
    · rw [if_neg h, if_pos (by simp at h; simp [h])]
      simp
      omega

/-- **C9** (amended): the exposed capacity boolean of a layer — modelled
from the spec as `calculateMemoryUsage(nodes) ≥ maxMemory`, since its
producer is absent from the sources — equals "sum of the sizes of the
nodes whose id does not contain the substring `free` or `unallocated`
≥ maxMemory"; on the heap layer this coincides with "sum of the sizes of
the non-Free, non-Unallocated blocks ≥ maxMemory" because heap ids encode
the block state, but a stack node whose *name* contains one of those
substrings is also excluded. -/
theorem c9_capacity_check (env : VizEnv) (heap : List HeapBlock)
    (sns0 : List NodeData) (ctr : Nat) (ns : List NodeData) (m : Nat) :
    (layerFull ns m =
      decide (sumSizes (ns.filter (fun n => !usageExcluded n)) ≥ m)) ∧
    (calculateMemoryUsage (useHeapNodesCompute env heap sns0 ctr).1 =
      ((heap.filter (fun b => !(decide (b.blockState = "Free") ||
        decide (b.blockState = "Unallocated")))).map (fun b => b.size)).sum) ∧
    (layerFull (useHeapNodesCompute env heap sns0 ctr).1 m =
      decide (((heap.filter (fun b => !(decide (b.blockState = "Free") ||
        decide (b.blockState = "Unallocated")))).map (fun b => b.size)).sum ≥ m)) := by
  have husage : calculateMemoryUsage (useHeapNodesCompute env heap sns0 ctr).1 =
      ((heap.filter (fun b => !(decide (b.blockState = "Free") ||
        decide (b.blockState = "Unallocated")))).map (fun b => b.size)).sum := by
    rw [useHeapNodesCompute, heapBuildLoop_usage]
    simp [calculateMemoryUsage]
  refine ⟨?_, husage, ?_⟩
  · rw [layerFull, calculateMemoryUsage_eq]
  · rw [layerFull, husage]

/-- Counterexample to C9 as stated: a stack variable literally named
`freed` (never `Free` or `Unallocated` — stack nodes have no block state)
is excluded from `calculateMemoryUsage` because its id contains the
substring `free`; with `maxMemory = 4` the claim's formula yields
`4 ≥ 4 = true`, but the exposed boolean is `false`. -/
theorem c9_counterexample :
    calculateMemoryUsage
        (useStackNodesCompute envW [.variable_ "freed" 4 (some "1") "int"] 0).1 = 0 ∧
    sumSizes (useStackNodesCompute envW [.variable_ "freed" 4 (some "1") "int"] 0).1 = 4 ∧
    (∀ n ∈ (useStackNodesCompute envW [.variable_ "freed" 4 (some "1") "int"] 0).1,
      n.data.nodeType = "stack") ∧
    layerFull (useStackNodesCompute envW [.variable_ "freed" 4 (some "1") "int"] 0).1 4
      = false := by
  refine ⟨by decide, by decide, by decide, by decide⟩


/-! ## Recomputation state-machine claims -/

/-- The valid analysis result used by the state-machine witnesses. -/
def rW : RespRef := ⟨1, { stack := some stackP, heap := some heapA }⟩

/-- The state after rendering `rW` from the initial state. -/
def sW : VizState :=
  okState (recompute envW initState ⟨some rW, false, "int main"⟩)

theorem heapEffect_ok (env : VizEnv) (eff : Option RespRef)
    (sns : List NodeData) (ctr : Nat)
    (hwf : ∀ r, eff = some r → r.val.heap ≠ none → r.val.stack ≠ none) :
    ∃ o, heapEffect env eff sns ctr = .ok o := by
  rcases eff with _ | r
  · exact ⟨none, rfl⟩
  · rcases hh : r.val.heap with _ | blocks
    · exact ⟨none, by rw [heapEffect, hh]⟩
    · rcases hs : r.val.stack with _ | syms
      · exact absurd hs (hwf r rfl (by rw [hh]; exact fun h => by cases h))
      · cases syms with
        | nil => exact ⟨none, by rw [heapEffect, hh, hs]⟩
        | cons x xs =>
          exact ⟨some (useHeapNodesCompute env blocks sns ctr),
            by rw [heapEffect, hh, hs]⟩

/-- **C7** (idempotence under identical identity): recomputing with the
very analysis-result object already retained as `lastValidAnalyzeResponse`
and already rendered (the effect dependencies match it) triggers no full
rebuild and leaves the state — every node, address and position — exactly
unchanged. -/
theorem c7_idempotent_identity (env : VizEnv) (s : VizState) (r : RespRef)
    (src : String)
    (hlv : s.lastValid = some r)
    (hvalid : hasValidResp (some r) false = true)
    (hsd : s.prevStackDep = some (some r))
    (hhd : s.prevHeapDep = some (some r, s.ver)) :
    recompute env s { resp := some r, err := false, source := src } =
      .ok (s, false) := by
  rw [recompute]
  simp only [hvalid, hlv, hsd, hhd]
  simp
  rw [← hhd, ← hsd, ← hlv]

/-- Witness for C7: rendering `rW` and then recomputing with the same
object leaves the state untouched. -/
theorem c7_idempotent_identity_witness :
    recompute envW sW ⟨some rW, false, "int main"⟩ = .ok (sW, false) :=
  c7_idempotent_identity envW sW rW "int main" (by decide) (by decide)
    (by decide) (by decide)

/-- **C1** (freeze-on-error): once a valid result `r` has been rendered
(the effect dependencies record it) and retained as the last valid
response, a recomputation receiving an erroring or empty result while the
source text is non-empty leaves the whole emitted graph — all nodes and
edges — equal to the one rendered for `r`. -/
theorem c1_freeze_on_error (env : VizEnv) (s : VizState) (r : RespRef)
    (inp : VizInput)
    (hlv : s.lastValid = some r)
    (hvalid : hasValidResp (some r) false = true)
    (hsd : s.prevStackDep = some (some r))
    (hhd : s.prevHeapDep = some (some r, s.ver))
    (herr : hasValidResp inp.resp inp.err = false)
    (hsrc : jsTrim inp.source ≠ "") :
    ∃ s2, recompute env s inp = .ok (s2, false) ∧
      emittedGraph env s2 = emittedGraph env s := by
  refine ⟨s, ?_, rfl⟩
  rw [recompute]
  simp only [herr, hlv, hsd, hhd]
  simp [hsrc]
  rw [← hhd, ← hsd, ← hlv]

/-- Witness for C1: after rendering `rW`, an erroring recomputation with
non-empty source emits the identical graph. -/
theorem c1_freeze_on_error_witness :
    emittedGraph envW (okState (recompute envW sW
      ⟨some ⟨2, { stack := some [], heap := some [] }⟩, true, "int main"⟩)) =
      emittedGraph envW sW := by
  obtain ⟨s2, hrec, hg⟩ := c1_freeze_on_error envW sW rW
    ⟨some ⟨2, { stack := some [], heap := some [] }⟩, true, "int main"⟩
    (by decide) (by decide) (by decide) (by decide) (by decide) (by decide)
  rw [hrec]
  exact hg

/-- **C4** (amended): on a recomputation whose source text is empty while
the current result is the invalid default `\x7b stack: [], heap: [] \x7d`
object, the stack layer is cleared (stack nodes and stack connections
become empty), but the heap layer keeps its previously rendered nodes and
edges — `useHeapNodes` returns early when the effective stack list is
empty, so the graph is fully cleared only if the heap was already empty. -/
theorem c4_clear_on_empty_source (env : VizEnv) (s : VizState) (r : RespRef)
    (e : Bool) (src : String)
    (hsrc : jsTrim src = "")
    (hstack : r.val.stack = some [])
    (hheap : r.val.heap = some [])
    (hfresh : s.prevStackDep ≠ some (some r)) :
    ∃ s2, recompute env s ⟨some r, e, src⟩ = .ok (s2, false) ∧
      s2.stackNodes = [] ∧ s2.stackConns = [] ∧
      s2.heapNodes = s.heapNodes ∧ s2.heapConns = s.heapConns ∧
      s2.lastValid = s.lastValid := by
  have hvalid : hasValidResp (some r) e = false := by
    rw [hasValidResp, hstack, hheap]
    simp
  refine ⟨
    { stackNodes := []
      heapNodes := s.heapNodes
      stackConns := []
      heapConns := s.heapConns
      lastValid := s.lastValid
      prevStackDep := some (some r)
      prevHeapDep := some (some r, s.ver + 1)
      ver := s.ver + 1
      ctr := s.ctr }, ?_, rfl, rfl, rfl, rfl, rfl⟩
  simp only [recompute]
  have hse : stackEffect env (some r) s.ctr = some ([], [], s.ctr) := by
    rw [stackEffect, hstack]
    rfl
  by_cases hpd : s.prevHeapDep = some (some r, s.ver + 1)
  · simp [hvalid, hsrc, hse, hfresh, hpd, heapFinish, heapEffect, hheap, hstack]
  · simp [hvalid, hsrc, hse, hfresh, hpd, heapFinish, heapEffect, hheap, hstack]

/-- Witness for the amended C4: after rendering `rW` (one stack node, one
heap node, one heap edge), emptying the source clears the stack layer but
the heap node and its edge remain. -/
theorem c4_clear_on_empty_source_witness :
    (okState (recompute envW sW
      ⟨some ⟨2, { stack := some [], heap := some [] }⟩, false, ""⟩)).stackNodes
        = [] ∧
    (okState (recompute envW sW
      ⟨some ⟨2, { stack := some [], heap := some [] }⟩, false, ""⟩)).heapNodes
        = sW.heapNodes ∧
    sW.heapNodes.length = 1 := by
  obtain ⟨s2, hrec, h1, h2, h3, h4, h5⟩ := c4_clear_on_empty_source envW sW
    ⟨2, { stack := some [], heap := some [] }⟩ false ""
    (by decide) (by decide) (by decide) (by decide)
  rw [hrec]
  exact ⟨h1, h3, by decide⟩

/-- Counterexample to C4 as stated: the same scenario evaluated concretely
— after the empty-source recomputation the emitted graph still contains
one heap node and one heap edge, so not everything is cleared. -/
theorem c4_counterexample :
    sW.heapNodes.length = 1 ∧ sW.heapConns.length = 1 ∧
    jsTrim "" = "" ∧
    hasValidResp (some ⟨2, { stack := some [], heap := some [] }⟩) false
      = false ∧
    (okState (recompute envW sW
      ⟨some ⟨2, { stack := some [], heap := some [] }⟩, false, ""⟩)).stackNodes
        = [] ∧
    (okState (recompute envW sW
      ⟨some ⟨2, { stack := some [], heap := some [] }⟩, false, ""⟩)).heapNodes.length
        = 1 ∧
    (okState (recompute envW sW
      ⟨some ⟨2, { stack := some [], heap := some [] }⟩, false, ""⟩)).heapConns.length
        = 1 := by
  refine ⟨by decide, by decide, by decide, by decide, by decide, by decide,
    by decide⟩

theorem ite_ok {c : Prop} [Decidable c] (x : VizState × Bool)
    (y : Except Unit (VizState × Bool)) (hy : ∃ o, y = .ok o) :
    ∃ out, (if c then Except.ok x else y) = .ok out := by
  by_cases h : c
  · exact ⟨x, by rw [if_pos h]⟩
  · obtain ⟨o, ho⟩ := hy
    exact ⟨o, by rw [if_neg h, ho]⟩

theorem heapFinish_ok (env : VizEnv) (effective : Option RespRef)
    (sn1 hn0 : List NodeData) (sc1 hc0 : List EdgeData)
    (lastValid' : Option RespRef) (psd' : Option (Option RespRef))
    (heapDep : Option RespRef × Nat) (ver1 ctr1 : Nat) (didReset : Bool)
    (h : ∃ o, heapEffect env effective sn1 ctr1 = .ok o) :
    ∃ out, heapFinish env effective sn1 hn0 sc1 hc0 lastValid' psd' heapDep
      ver1 ctr1 didReset = .ok out := by
  obtain ⟨o, ho⟩ := h
  rcases o with _ | x
  · exact ⟨_, by rw [heapFinish, ho]⟩
  · rcases x with ⟨hns, sns', hcs, ctr2⟩
    exact ⟨_, by rw [heapFinish, ho]⟩

/-- **C8** (amended): no recomputation step throws provided every analysis
result reaching the core (the incoming one and the retained last-valid
one) that has a `heap` field also has a `stack` field; under that proviso
every path of `recompute` returns normally, the worst outcome being an
empty or stale graph. Without it, the heap effect's guard reads
`analyzeResponse.stack.length` and throws. -/
theorem c8_no_crash (env : VizEnv) (s : VizState) (inp : VizInput)
    (hr : ∀ r, inp.resp = some r → r.val.heap ≠ none → r.val.stack ≠ none)
    (hl : ∀ r, s.lastValid = some r → r.val.heap ≠ none → r.val.stack ≠ none) :
    ∃ out, recompute env s inp = .ok out := by
  simp only [recompute]
  exact ite_ok _ _ (heapFinish_ok _ _ _ _ _ _ _ _ _ _ _ _
    (heapEffect_ok _ _ _ _ (fun r hEq hh => by
      split at hEq
      · split at hEq
        · exact hr r hEq hh
        · exact hr r hEq hh
      · split at hEq
        · exact hl r hEq hh
        · exact hr r hEq hh)))

/-- Witness for the amended C8: a well-formed input recomputes normally. -/
theorem c8_no_crash_witness :
    recompute envW initState ⟨some rW, false, "int main"⟩ ≠
      Except.error () := by
  obtain ⟨out, hout⟩ := c8_no_crash envW initState
    ⟨some rW, false, "int main"⟩
    (fun r hr _ => by
      have h2 : some rW = some r := hr
      injection h2 with h2
      rw [← h2]
      exact fun h => by cases h)
    (fun r hr => by cases hr)
  rw [hout]
  exact fun h => by cases h

/-- Counterexample to C8 as stated: an analysis result with a `heap` field
but no `stack` field crashes the heap effect (the guard dereferences
`analyzeResponse.stack.length` on `undefined`). -/
theorem c8_counterexample :
    recompute envW initState
      ⟨some ⟨7, { stack := none, heap := some heapA }⟩, false, "x"⟩ =
      Except.error () := by decide


/-! ## Intra-stack pointer resolution claim -/

/-- Stack input with two variables of the same name, both matching the
pointer's declared target. -/
def stackDup : List StackSymbol :=
  [.variable_ "x" 4 (some "1") "Integer",
   .variable_ "x" 4 (some "2") "Integer",
   .pointer "p" 8 (some "x")]

/-- **C5** (amended): when the stack node ids are pairwise distinct, a
pointer symbol whose declared target name `t` is the id of a stack node
yields exactly one pointer→target edge with the deterministic id
`e<pointerName>-<targetName>` and type `step`; the pointer node's display
value becomes `&<targetName>`, its `extraInfo` records the target node's
synthesized address, and the target node gets both anchors on its right
side. Without the distinctness precondition one edge is pushed per
matching node (see the counterexample with a duplicated variable name). -/
theorem c5_pointer_resolution (env : VizEnv) (stack : List StackSymbol)
    (ctr k psize : Nat) (p t : String)
    (hk : stack.get? k = some (.pointer p psize (some t)))
    (hnodup : ((useStackNodesCompute env stack ctr).1.map
      (fun n => n.id)).Nodup)
    (ht : t ∈ (useStackNodesCompute env stack ctr).1.map (fun n => n.id)) :
    ((useStackNodesCompute env stack ctr).2.1.filter
        (fun e => decide (e.source = p) && decide (e.target = t))).length =
      1 ∧
    (∀ e ∈ (useStackNodesCompute env stack ctr).2.1, e.source = p →
      e.target = t → e.id = "e" ++ p ++ "-" ++ t ∧ e.type = "step") ∧
    ∃ i₀ j₀ pn tn,
      (useStackNodesCompute env stack ctr).1.get? i₀ = some pn ∧
      pn.id = p ∧
      (useStackNodesCompute env stack ctr).1.get? j₀ = some tn ∧
      tn.id = t ∧
      pn.data.value = "&" ++ t ∧
      pn.data.extraInfo.pointingToAddress =
        some tn.data.extraInfo.address ∧
      tn.sourcePosition = some .right ∧
      tn.targetPosition = some .right := by
  set ns := stackBuildLoop env stack [] 0xbfffffff with hns
  have houtdef : useStackNodesCompute env stack ctr =
      phase2Outer env (List.range ns.length) ns [] ctr := by
    rw [hns]
    rfl
  have hsig : ns.map stackSig = stack.filterMap symSig := by
    rw [hns]
    simpa using stackBuildLoop_sig env stack [] 0xbfffffff
  have hmem : (p, "Pointer", some t) ∈ ns.map stackSig := by
    rw [hsig]
    exact List.mem_filterMap.2 ⟨_, List.get?_mem hk, rfl⟩
  rcases List.mem_map.1 hmem with ⟨nd0, hnd0mem, hnd0sig⟩
  rcases List.get?_of_mem hnd0mem with ⟨i₀, hi₀⟩
  have hnd0id : nd0.id = p := congrArg (fun q => q.1) hnd0sig
  have hnd0ty : nd0.data.dataType = "Pointer" :=
    congrArg (fun q => q.2.1) hnd0sig
  have hnd0lbl : nd0.data.extraInfo.pointingToLabel = some t :=
    congrArg (fun q => q.2.2) hnd0sig
  have houtproj0 : (useStackNodesCompute env stack ctr).1.map stackProj =
      ns.map stackProj := by
    rw [houtdef]
    exact phase2Outer_proj env _ ns [] ctr
  have hids_out : (useStackNodesCompute env stack ctr).1.map
      (fun n => n.id) = ns.map (fun n => n.id) := ids_of_proj houtproj0
  have hnodup' : (ns.map (fun n => n.id)).Nodup := by
    rw [← hids_out]
    exact hnodup
  have ht' : t ∈ ns.map (fun n => n.id) := by
    rw [← hids_out]
    exact ht
  rcases List.mem_map.1 ht' with ⟨tn0, htn0mem, htn0id⟩
  rcases List.get?_of_mem htn0mem with ⟨j₀, hj₀⟩
  rcases List.get?_eq_some.1 hi₀ with ⟨hi₀lt, -⟩
  rcases List.get?_eq_some.1 hj₀ with ⟨hj₀lt, -⟩
  rcases List.append_of_mem (List.mem_range.2 hi₀lt) with ⟨O1, O2, hOsplit⟩
  have hOnodup : (O1 ++ i₀ :: O2).Nodup := by
    rw [← hOsplit]
    exact List.nodup_range _
  have hi₀O1 : i₀ ∉ O1 := by
    rcases List.nodup_append.1 hOnodup with ⟨-, -, hdisj⟩
    exact fun hm => hdisj hm (List.mem_cons_self _ _)
  have hi₀O2 : i₀ ∉ O2 :=
    (List.nodup_cons.1 (List.nodup_append.1 hOnodup).2.1).1
  rcases List.append_of_mem (List.mem_range.2 hj₀lt) with ⟨J1, J2, hJsplit⟩
  have hJnodup : (J1 ++ j₀ :: J2).Nodup := by
    rw [← hJsplit]
    exact List.nodup_range _
  have hj₀J1 : j₀ ∉ J1 := by
    rcases List.nodup_append.1 hJnodup with ⟨-, -, hdisj⟩
    exact fun hm => hdisj hm (List.mem_cons_self _ _)
  have hj₀J2 : j₀ ∉ J2 :=
    (List.nodup_cons.1 (List.nodup_append.1 hJnodup).2.1).1
  rcases hA : phase2Outer env O1 ns [] ctr with ⟨A1, Aes, Actr⟩
  have hAproj : A1.map stackProj = ns.map stackProj := by
    have h := phase2Outer_proj env O1 ns [] ctr
    rw [hA] at h
    exact h
  have hAids : A1.map (fun n => n.id) = ns.map (fun n => n.id) :=
    ids_of_proj hAproj
  have hAlen : A1.length = ns.length := by
    have h := congrArg List.length hAproj
    simpa using h
  rcases get?_proj_transfer hAproj hi₀ with ⟨ndA, hndA, hndAproj⟩
  have hndAty : ndA.data.dataType = "Pointer" := by
    have h : ndA.data.dataType = nd0.data.dataType :=
      congrArg (fun q => q.2.1) hndAproj
    rw [h, hnd0ty]
  have hndAlbl : ndA.data.extraInfo.pointingToLabel = some t := by
    have h : ndA.data.extraInfo.pointingToLabel =
        nd0.data.extraInfo.pointingToLabel :=
      congrArg (fun q => q.2.2.1) hndAproj
    rw [h, hnd0lbl]
  have hndAid : ndA.id = p := by
    have h : ndA.id = nd0.id := congrArg (fun q => q.1) hndAproj
    rw [h, hnd0id]
  rcases get?_proj_transfer hAproj hj₀ with ⟨tnA, htnA, htnAproj⟩
  have htnAid : tnA.id = t := by
    have h : tnA.id = tn0.id := congrArg (fun q => q.1) htnAproj
    rw [h, htn0id]
  have htnAaddr : tnA.data.extraInfo.address = tn0.data.extraInfo.address :=
    congrArg (fun q => q.2.2.2.1) htnAproj
  have hJmatch : ∀ (J : List Nat), j₀ ∉ J → ∀ j ∈ J, ∀ m : NodeData,
      A1.get? j = some m → m.id ≠ t := by
    intro J hnotin j hjmem m hm hmid
    have h1 : (ns.get? j).map (fun n => n.id) = some m.id := by
      rw [← List.get?_map, ← hAids, List.get?_map, hm]
      rfl
    rcases hnsj : ns.get? j with _ | m₀
    · rw [hnsj] at h1
      cases h1
    rw [hnsj] at h1
    simp only [Option.map_some'] at h1
    injection h1 with h1
    have hjj : j = j₀ := id_unique hnodup' hnsj hj₀
      (by rw [h1, hmid, ← htn0id])
    rw [hjj] at hjmem
    exact hnotin hjmem
  rcases phase2Inner_single env i₀ j₀ J1 J2 A1 Aes Actr ndA tnA t hndA htnA
    hndAlbl htnAid (hJmatch J1 hj₀J1) (hJmatch J2 hj₀J2) with
    ⟨arr2, hrun, ⟨pn1, hpn1, hpn1val, hpn1ptA⟩, ⟨qn1, hqn1, hqn1s, hqn1t⟩⟩
  have hfull : phase2Outer env (List.range ns.length) ns [] ctr =
      phase2Outer env O2 arr2
        (Aes ++ [createEdge ("e" ++ ndA.id ++ "-" ++ t) "step" ndA.id t
          (env.cg Actr)]) (Actr + 1) := by
    rw [hOsplit, phase2Outer_append, hA]
    show phase2Outer env (i₀ :: O2) A1 Aes Actr = _
    rw [phase2Outer]
    simp only [hndA]
    rw [if_pos hndAty]
    rw [hAlen, hJsplit, hrun]
  rcases hC : phase2Outer env O2 arr2
      (Aes ++ [createEdge ("e" ++ ndA.id ++ "-" ++ t) "step" ndA.id t
        (env.cg Actr)]) (Actr + 1) with ⟨C1, Ces, Cctr⟩
  have hAedges := phase2Outer_edges env O1 ns [] ctr
  rw [hA] at hAedges
  rcases hAedges with ⟨L1, hL1eq, hL1prop⟩
  have hAesL1 : Aes = L1 := by simpa using hL1eq
  have harr2proj : arr2.map stackProj = ns.map stackProj := by
    have h1 : arr2 = (phase2Inner env i₀ (J1 ++ j₀ :: J2) A1 Aes Actr).1 := by
      rw [hrun]
    rw [h1, phase2Inner_proj]
    exact hAproj
  have harr2ids : arr2.map (fun n => n.id) = ns.map (fun n => n.id) :=
    ids_of_proj harr2proj
  have hCedges := phase2Outer_edges env O2 arr2
    (Aes ++ [createEdge ("e" ++ ndA.id ++ "-" ++ t) "step" ndA.id t
      (env.cg Actr)]) (Actr + 1)
  rw [hC] at hCedges
  rcases hCedges with ⟨L2, hL2eq, hL2prop⟩
  have hCesEq : Ces = L1 ++ createEdge ("e" ++ p ++ "-" ++ t) "step" p t
      (env.cg Actr) :: L2 := by
    rw [← hndAid]
    simpa [hAesL1] using hL2eq
  rcases phase2Outer_pres_ne env i₀
    (fun n => n.data.value = "&" ++ t ∧
      n.data.extraInfo.pointingToAddress = some tnA.data.extraInfo.address)
    (fun n hn => hn) O2 hi₀O2 arr2
    (Aes ++ [createEdge ("e" ++ ndA.id ++ "-" ++ t) "step" ndA.id t
      (env.cg Actr)]) (Actr + 1) pn1 hpn1 ⟨hpn1val, hpn1ptA⟩ with
    ⟨pnF, hpnF, hpnFval, hpnFptA⟩
  rw [hC] at hpnF
  have hpnC : C1.get? i₀ = some pnF := hpnF
  rcases phase2Outer_pres env j₀
    (fun n => n.sourcePosition = some AnchorPos.right ∧
      n.targetPosition = some AnchorPos.right)
    (fun n hn => ⟨rfl, rfl⟩) (fun tn' lbl' n hn => hn) O2 arr2
    (Aes ++ [createEdge ("e" ++ ndA.id ++ "-" ++ t) "step" ndA.id t
      (env.cg Actr)]) (Actr + 1) qn1 hqn1 ⟨hqn1s, hqn1t⟩ with
    ⟨qnF, hqnF, hqnFs, hqnFt⟩
  rw [hC] at hqnF
  have hqnC : C1.get? j₀ = some qnF := hqnF
  have hCproj : C1.map stackProj = ns.map stackProj := by
    have h := phase2Outer_proj env O2 arr2
      (Aes ++ [createEdge ("e" ++ ndA.id ++ "-" ++ t) "step" ndA.id t
        (env.cg Actr)]) (Actr + 1)
    rw [hC] at h
    have h2 : C1.map stackProj = arr2.map stackProj := h
    exact h2.trans harr2proj
  rcases get?_proj_transfer hCproj hi₀ with ⟨pn', hpn', hpn'proj⟩
  have hpn'eq : pn' = pnF := by
    have h3 : some pn' = some pnF := by rw [← hpn', hpnC]
    injection h3
  have hpnFid : pnF.id = p := by
    rw [← hpn'eq]
    have h : pn'.id = nd0.id := congrArg (fun q => q.1) hpn'proj
    rw [h, hnd0id]
  rcases get?_proj_transfer hCproj hj₀ with ⟨qn', hqn', hqn'proj⟩
  have hqn'eq : qn' = qnF := by
    have h3 : some qn' = some qnF := by rw [← hqn', hqnC]
    injection h3
  have hqnFid : qnF.id = t := by
    rw [← hqn'eq]
    have h : qn'.id = tn0.id := congrArg (fun q => q.1) hqn'proj
    rw [h, htn0id]
  have hqnFaddr : qnF.data.extraInfo.address =
      tn0.data.extraInfo.address := by
    rw [← hqn'eq]
    exact congrArg (fun q => q.2.2.2.1) hqn'proj
  have hL1src : ∀ e ∈ L1, e.source ≠ p := by
    intro e he hsrc
    rcases hL1prop e he with ⟨⟨i', hiO1, hsome⟩, -⟩
    have h1 : (ns.get? i').map (fun n => n.id) = some e.source := by
      rw [← List.get?_map]
      exact hsome
    rcases hnsj : ns.get? i' with _ | m
    · rw [hnsj] at h1
      cases h1
    rw [hnsj] at h1
    simp only [Option.map_some'] at h1
    injection h1 with h1
    have hii : i' = i₀ := id_unique hnodup' hnsj hi₀
      (by rw [h1, hsrc, ← hnd0id])
    rw [hii] at hiO1
    exact hi₀O1 hiO1
  have hL2src : ∀ e ∈ L2, e.source ≠ p := by
    intro e he hsrc
    rcases hL2prop e he with ⟨⟨i', hiO2, hsome⟩, -⟩
    rw [harr2ids] at hsome
    have h1 : (ns.get? i').map (fun n => n.id) = some e.source := by
      rw [← List.get?_map]
      exact hsome
    rcases hnsj : ns.get? i' with _ | m
    · rw [hnsj] at h1
      cases h1
    rw [hnsj] at h1
    simp only [Option.map_some'] at h1
    injection h1 with h1
    have hii : i' = i₀ := id_unique hnodup' hnsj hi₀
      (by rw [h1, hsrc, ← hnd0id])
    rw [hii] at hiO2
    exact hi₀O2 hiO2
  rw [houtdef, hfull, hC]
  refine ⟨?_, ?_, ?_⟩
  · show (Ces.filter
        (fun e => decide (e.source = p) && decide (e.target = t))).length = 1
    have hfL1 : L1.filter
        (fun e => decide (e.source = p) && decide (e.target = t)) = [] := by
      rw [List.filter_eq_nil_iff]
      intro e he
      simp only [Bool.and_eq_true, decide_eq_true_eq, not_and]
      intro hsrc
      exact absurd hsrc (hL1src e he)
    have hfL2 : L2.filter
        (fun e => decide (e.source = p) && decide (e.target = t)) = [] := by
      rw [List.filter_eq_nil_iff]
      intro e he
      simp only [Bool.and_eq_true, decide_eq_true_eq, not_and]
      intro hsrc
      exact absurd hsrc (hL2src e he)
    rw [hCesEq, List.filter_append, hfL1,
      List.filter_cons_of_pos (by simp [createEdge]), hfL2]
    rfl
  · intro e he hsrc htgt
    rw [hCesEq] at he
    rcases List.mem_append.1 he with h1 | h2
    · rcases hL1prop e h1 with ⟨-, hidshape, hty⟩
      exact ⟨by rw [hidshape, hsrc, htgt], hty⟩
    rcases List.mem_cons.1 h2 with he1 | h3
    · subst he1
      exact ⟨rfl, rfl⟩
    · rcases hL2prop e h3 with ⟨-, hidshape, hty⟩
      exact ⟨by rw [hidshape, hsrc, htgt], hty⟩
  · exact ⟨i₀, j₀, pnF, qnF, hpnC, hpnFid, hqnC, hqnFid, hpnFval,
      by rw [hpnFptA, htnAaddr, hqnFaddr], hqnFs, hqnFt⟩

/-- Witness for C5 at the spec's example scenario: two stack nodes `x` and
`p`, addresses `0xBFFFFFFF` and `0xC0000003`, one `ep-x` edge, display
value `&x`. -/
theorem c5_pointer_resolution_witness :
    (useStackNodesCompute envW stackW 0).1.length = 2 ∧
    (useStackNodesCompute envW stackW 0).1.map (fun n => n.id) =
      ["x", "p"] ∧
    (useStackNodesCompute envW stackW 0).1.map
      (fun n => n.data.extraInfo.address) = ["0xBFFFFFFF", "0xC0000003"] ∧
    (useStackNodesCompute envW stackW 0).2.1.map (fun e => e.id) =
      ["ep-x"] ∧
    (useStackNodesCompute envW stackW 0).1.map (fun n => n.data.value) =
      ["12", "&x"] ∧
    (((useStackNodesCompute envW stackW 0).2.1.filter
        (fun e => decide (e.source = "p") &&
          decide (e.target = "x"))).length = 1 ∧
      (∀ e ∈ (useStackNodesCompute envW stackW 0).2.1, e.source = "p" →
        e.target = "x" →
        e.id = "e" ++ "p" ++ "-" ++ "x" ∧ e.type = "step") ∧
      ∃ i₀ j₀ pn tn,
        (useStackNodesCompute envW stackW 0).1.get? i₀ = some pn ∧
        pn.id = "p" ∧
        (useStackNodesCompute envW stackW 0).1.get? j₀ = some tn ∧
        tn.id = "x" ∧
        pn.data.value = "&" ++ "x" ∧
        pn.data.extraInfo.pointingToAddress =
          some tn.data.extraInfo.address ∧
        tn.sourcePosition = some .right ∧
        tn.targetPosition = some .right) :=
  ⟨by decide, by decide, by decide, by decide, by decide,
    c5_pointer_resolution envW stackW 0 1 8 "p" "x" (by decide) (by decide)
      (by decide)⟩

/-- Counterexample to the unqualified claim: with a duplicated variable
name `x`, the pointer `p` matches twice and two `ep-x` edges are pushed. -/
theorem c5_counterexample :
    stackDup.get? 2 = some (.pointer "p" 8 (some "x")) ∧
    "x" ∈ (useStackNodesCompute envW stackDup 0).1.map (fun n => n.id) ∧
    ((useStackNodesCompute envW stackDup 0).2.1.filter
      (fun e => decide (e.source = "p") &&
        decide (e.target = "x"))).length = 2 := by
  refine ⟨by decide, by decide, by decide⟩


end MV
